import Mathlib

/-!
# Chat client/server: wire codec and server handlers

A shallow embedding of `chat_ex.hpp` (the frame layout and its encoders), of the
handlers and the receive loop of `chat_server.cpp`, and of the command handling of
`chat_client.cpp`, followed by theorems about them.

Conventions of the embedding.

* A `std::string` is the list of its bytes (`Str`); a byte is a natural number.
* A C array is the list of its elements.  A store or `memcpy` that reaches outside the
  array it addresses has no defined result in C++, so every function that performs
  such an access returns `none` there.  The one access past an array that is given a
  result is the terminator that `handle_list` stores right behind a full buffer
  (`terminate_at`): the buffer keeps its 64 bytes and the page is built from them.
* The host is little-endian (this only matters for `htons` and the `int` store of
  `error_msg`).
* The datagrams a handler passes to `sock.sendto` are collected, in order, as a list
  of (destination address, frame) pairs.
-/

namespace chat

/-! ## chat_ex.hpp -/

/-- Bytes of a `std::string`. -/
abbrev Str := List Nat

/-- Bytes of an ASCII string literal. -/
def lit (s : String) : Str := s.toList.map Char.toNat

def MAX_USERNAME_LENGTH : Nat := 64
def MAX_MESSAGE_LENGTH : Nat := 1024
def SERVER_PORT : Nat := 8867

def ERR_USER_ALREADY_ONLINE : Nat := 0
def ERR_UNKNOWN_USERNAME : Nat := 1
def ERR_UNEXPECTED_MSG : Nat := 2

/-- Protocol command types, `enum chat_type`. -/
inductive chat_type where
  | JOIN | JACK | BROADCAST | DIRECTMESSAGE | LIST | LEAVE | LACK | EXIT
  | CREATEGROUP | MESSAGEGROUP | ERROR | UNKNOWN
deriving DecidableEq, Repr

/-- Enumerator values: `JOIN = 0`, then counting up. -/
def chat_type.toNat : chat_type → Nat
  | .JOIN => 0 | .JACK => 1 | .BROADCAST => 2 | .DIRECTMESSAGE => 3 | .LIST => 4
  | .LEAVE => 5 | .LACK => 6 | .EXIT => 7 | .CREATEGROUP => 8 | .MESSAGEGROUP => 9
  | .ERROR => 10 | .UNKNOWN => 11

/-- The check `type >= JOIN && type <= ERROR` on the received tag. -/
def is_valid_type (type : Nat) : Bool :=
  decide (chat_type.JOIN.toNat ≤ type) && decide (type ≤ chat_type.ERROR.toNat)

/-- The frame `struct chat_message`: a tag byte and three byte arrays of
64, 1024 and 64 elements. -/
structure chat_message where
  type_ : Nat
  username_ : List Nat
  message_ : List Nat
  groupname_ : List Nat
deriving DecidableEq, Repr

/-- The three arrays have their declared sizes. -/
def chat_message.sized (m : chat_message) : Prop :=
  m.username_.length = MAX_USERNAME_LENGTH ∧ m.message_.length = MAX_MESSAGE_LENGTH ∧
    m.groupname_.length = MAX_USERNAME_LENGTH

instance (m : chat_message) : Decidable m.sized := by
  unfold chat_message.sized; infer_instance

/-- Aggregate initialisation `chat_message{T, '\0', '\0'}`: the tag is set and every
array element is zero. -/
def chat_message.zeroed (t : chat_type) : chat_message :=
  { type_ := t.toNat
    username_ := List.replicate MAX_USERNAME_LENGTH 0
    message_ := List.replicate MAX_MESSAGE_LENGTH 0
    groupname_ := List.replicate MAX_USERNAME_LENGTH 0 }

/-- The call `memcpy(&a[off], src.c_str(), src.length())`: defined when the copied
range lies inside the array `a`. -/
def memcpy (a : List Nat) (off : Nat) (src : Str) : Option (List Nat) :=
  if off + src.length ≤ a.length then
    some (a.take off ++ src ++ a.drop (off + src.length))
  else none

/-- The assignment `a[i] = v`: defined when `i` indexes the array `a`. -/
def store (a : List Nat) (i : Nat) (v : Nat) : Option (List Nat) :=
  if i < a.length then some (a.set i v) else none

/-- The statement pair `memcpy(&a[0], s.c_str(), s.length()); a[s.length()] = 0;`
with which every encoder fills a text field. -/
def copy_terminated (a : List Nat) (s : Str) : Option (List Nat) := do
  let a ← memcpy a 0 s
  store a s.length 0

/-- The encoder `join_msg`.  Its local `chat_message msg;` is not initialised, so the
previous content of that memory is the parameter `stack`. -/
def join_msg (stack : chat_message) (username : Str) : Option chat_message := do
  let msg := { stack with type_ := chat_type.JOIN.toNat }
  let u ← copy_terminated msg.username_ username
  let m ← store msg.message_ 0 0
  pure { msg with username_ := u, message_ := m }

def jack_msg : chat_message := chat_message.zeroed .JACK

/-- The common body of `broadcast_msg`, `dm_msg` and `list_msg`: both fields are
copied with their full length and terminated. -/
def username_message_msg (t : chat_type) (username message : Str) :
    Option chat_message := do
  let msg := chat_message.zeroed t
  let u ← copy_terminated msg.username_ username
  let m ← copy_terminated msg.message_ message
  pure { msg with username_ := u, message_ := m }

def broadcast_msg (username message : Str) : Option chat_message :=
  username_message_msg .BROADCAST username message

def dm_msg (username message : Str) : Option chat_message :=
  username_message_msg .DIRECTMESSAGE username message

def list_msg (username message : Str) : Option chat_message :=
  username_message_msg .LIST username message

def leave_msg : chat_message := chat_message.zeroed .LEAVE
def lack_msg : chat_message := chat_message.zeroed .LACK
def exit_msg : chat_message := chat_message.zeroed .EXIT

/-- Byte swap `htons` of a 16-bit value on a little-endian host. -/
def htons (x : Nat) : Nat := (x % 256) * 256 + (x / 256) % 256

/-- The encoder `error_msg(uint16_t err)`: the `int` value `htons(err)` is stored at
`message_[0..3]`, least significant byte first. -/
def error_msg (err : Nat) : chat_message :=
  let msg := chat_message.zeroed .ERROR
  let v := htons (err % 65536)
  { msg with
    message_ := [v % 256, v / 256 % 256, v / 65536 % 256, v / 16777216 % 256]
      ++ msg.message_.drop 4 }

/-- The loop of `creategroup_msg` that builds `concatenatedUsernames`; it stops at
the first username that would bring the length to `MAX_MESSAGE_LENGTH - 1`. -/
def concatenatedUsernames : Str → List Str → Str
  | acc, [] => acc
  | acc, username :: rest =>
    if acc.length + username.length + 1 ≥ MAX_MESSAGE_LENGTH - 1 then acc
    else concatenatedUsernames ((if !acc.isEmpty then acc ++ [58] else acc) ++ username) rest

/-- The encoder `creategroup_msg`. -/
def creategroup_msg (groupname : Str) (usernames : List Str) : Option chat_message := do
  let msg := chat_message.zeroed .CREATEGROUP
  let safe_groupname := groupname.take (MAX_USERNAME_LENGTH - 1)
  let g ← copy_terminated msg.groupname_ safe_groupname
  let m ← copy_terminated msg.message_ (concatenatedUsernames [] usernames)
  pure { msg with groupname_ := g, message_ := m }

/-- The encoder `messagegroup_msg`. -/
def messagegroup_msg (groupname message : Str) : Option chat_message := do
  let msg := chat_message.zeroed .MESSAGEGROUP
  let g ← copy_terminated msg.groupname_ groupname
  let m ← copy_terminated msg.message_ message
  pure { msg with groupname_ := g, message_ := m }

/-! ## Reading a frame (`server`, the receive loop) -/

/-- The bytes of a frame as passed to `sendto`: the members in declaration order (all
have alignment 1, so there is no padding). -/
def chat_message.bytes (m : chat_message) : List Nat :=
  m.type_ :: (m.username_ ++ m.message_ ++ m.groupname_)

/-- Construction `std::string{(const char*)p}` from memory `mem` starting at `p`: the
bytes before the first NUL; not defined when the memory holds no NUL. -/
def c_str (mem : List Nat) : Option Str :=
  if mem.contains 0 then some (mem.takeWhile (fun b => b != 0)) else none

/-- The tag `message->type_` of the receive buffer. -/
def buffer_type (buffer : List Nat) : Nat := buffer.headD 0

/-- The string read at `&message->username_[0]`. -/
def buffer_username (buffer : List Nat) : Option Str := c_str (buffer.drop 1)

/-- The string read at `&message->message_[0]`. -/
def buffer_msg (buffer : List Nat) : Option Str :=
  c_str (buffer.drop (1 + MAX_USERNAME_LENGTH))

/-- The string read at `&message->groupname_[0]`. -/
def buffer_groupname (buffer : List Nat) : Option Str :=
  c_str (buffer.drop (1 + MAX_USERNAME_LENGTH + MAX_MESSAGE_LENGTH))

/-- What the receive loop extracts from a datagram. -/
structure received where
  type : Nat
  username : Str
  msg : Str
  groupname : Str
deriving DecidableEq, Repr

/-- The receive loop's reading of a datagram of `sizeof(chat_message)` bytes. -/
def receive (buffer : List Nat) : Option received :=
  if buffer.length = 1 + MAX_USERNAME_LENGTH + MAX_MESSAGE_LENGTH + MAX_USERNAME_LENGTH then do
    let username ← buffer_username buffer
    let msg ← buffer_msg buffer
    let groupname ← buffer_groupname buffer
    pure { type := buffer_type buffer, username := username, msg := msg,
           groupname := groupname }
  else none

/-! ## chat_server.cpp -/

def USER_ALL : Str := lit "__ALL"
def USER_END : Str := lit "END"

/-- The address `struct sockaddr_in`: the fields the server reads, `sin_addr.s_addr`
and `sin_port`. -/
structure sockaddr_in where
  s_addr : Nat
  sin_port : Nat
deriving DecidableEq, Repr

/-- The registry `std::map<std::string, sockaddr_in *>`, as the list of its entries
in iteration order (ascending key order); every entry owns its address record. -/
abbrev online_users := List (Str × sockaddr_in)

/-- A call of `sock.sendto`: destination and frame. -/
abbrev datagram := sockaddr_in × chat_message

/-- The key order of the map, `std::string::operator<`: lexicographic on bytes. -/
def str_lt : Str → Str → Bool
  | [], [] => false
  | [], _ :: _ => true
  | _ :: _, [] => false
  | a :: as, b :: bs => decide (a < b) || (a == b && str_lt as bs)

/-- A registry as `std::map` keeps it: keys strictly ascending. -/
def map_ordered {β : Type} : List (Str × β) → Bool
  | [] => true
  | [_] => true
  | a :: b :: rest => str_lt a.1 b.1 && map_ordered (b :: rest)

/-- Lookup `m.find(k)`. -/
def map_find {β : Type} : List (Str × β) → Str → Option β
  | [], _ => none
  | (k', v) :: rest, k => if k' == k then some v else map_find rest k

/-- Assignment `m[k] = v`. -/
def map_assign {β : Type} : List (Str × β) → Str → β → List (Str × β)
  | [], k, v => [(k, v)]
  | (k', v') :: rest, k, v =>
    if k' == k then (k, v) :: rest
    else if str_lt k k' then (k, v) :: (k', v') :: rest
    else (k', v') :: map_assign rest k v

/-- Removal `m.erase(m.find(k))` of the entry with key `k`. -/
def map_erase {β : Type} : List (Str × β) → Str → List (Str × β)
  | [], _ => []
  | (k', v) :: rest, k => if k' == k then rest else (k', v) :: map_erase rest k

/-- The function `send_all`: the frame goes to every user for which
`(send_to_username && user.first == username) || user.first != username`. -/
def send_all (msg : chat_message) (username : Str) (users : online_users)
    (send_to_username : Bool) : List datagram :=
  (users.filter fun user =>
    (send_to_username && user.1 == username) || user.1 != username).map
    fun user => (user.2, msg)

/-- The sender `handle_error(err, client_address, sock, exit_loop)`. -/
def handle_error (err : Nat) (client_address : sockaddr_in) : List datagram :=
  [(client_address, error_msg err)]

/-- The handler `handle_broadcast`. -/
def handle_broadcast (users : online_users) (username msg : Str)
    (client_address : sockaddr_in) : Option (online_users × List datagram) := do
  let m ← broadcast_msg username msg
  let sent := (users.filter fun user_pair =>
      client_address.s_addr != user_pair.2.s_addr ||
      client_address.sin_port != user_pair.2.sin_port).map
    fun user_pair => (user_pair.2, m)
  pure (users, sent)

/-- Conversion of an `int` to the 64-bit unsigned `size_t`. -/
def to_size_t (i : Int) : Nat := (i % 2 ^ 64).toNat

/-- Conversion of a `size_t` to the 32-bit `int`. -/
def to_int (n : Nat) : Int :=
  if n % 2 ^ 32 < 2 ^ 31 then ((n % 2 ^ 32 : Nat) : Int)
  else ((n % 2 ^ 32 : Nat) : Int) - 2 ^ 32

/-- The expression `size - n` for an `int size` and a `size_t n`: the `int` is
converted and the difference is taken in `size_t`, so the value is never negative. -/
def size_minus (size : Int) (n : Nat) : Nat :=
  (to_size_t size + (2 ^ 64 - n % 2 ^ 64)) % 2 ^ 64

/-- The assignment `a[i] = v` with an `int` index. -/
def store_at (a : List Nat) (i : Int) (v : Nat) : Option (List Nat) :=
  if 0 ≤ i then store a i.toNat v else none

/-- The statement `data[N - size] = '\0'` of `handle_list`, which terminates a
buffer of `N` bytes at its fill level.  For an index inside the array it is the
assignment.  For the index `N`, which a full buffer gives, the zero byte goes to the
byte behind the array: the `N` bytes of the array keep their content, and these are
all that `handle_list` copies into a frame afterwards.  Any other index has no
defined result. -/
def terminate_at (a : List Nat) (i : Int) : Option (List Nat) :=
  if i = (a.length : Int) then some a else store_at a i 0

/-- The call `memcpy(&a[i], src, strlen(src))` with an `int` index. -/
def memcpy_at (a : List Nat) (i : Int) (src : Str) : Option (List Nat) :=
  if 0 ≤ i then memcpy a i.toNat src else none

/-- The call `memcpy(dst, src, n)` from the start of `src` to the start of `dst`. -/
def memcpy_n (dst src : List Nat) (n : Nat) : Option (List Nat) :=
  if n ≤ src.length ∧ n ≤ dst.length then some (src.take n ++ dst.drop n) else none

/-- The local variables of `handle_list` (pointers as offsets into their arrays)
together with the datagrams sent so far. -/
structure list_state where
  username_size : Int
  message_size : Int
  username_data : List Nat
  username_ptr : Nat
  message_data : List Nat
  message_ptr : Nat
  using_username : Bool
  sent : List datagram
deriving DecidableEq, Repr

/-- The block that builds a LIST frame from the two buffers (it occurs twice in
`handle_list`): both buffers are terminated at their fill level and copied. -/
def list_page (s : list_state) : Option (list_state × chat_message) := do
  let msg := chat_message.zeroed .LIST
  let ud ← terminate_at s.username_data ((MAX_USERNAME_LENGTH : Int) - s.username_size)
  let u ← memcpy_n msg.username_ ud (to_size_t ((MAX_USERNAME_LENGTH : Int) - s.username_size))
  let md ← terminate_at s.message_data ((MAX_MESSAGE_LENGTH : Int) - s.message_size)
  let m ← memcpy_n msg.message_ md (to_size_t ((MAX_MESSAGE_LENGTH : Int) - s.message_size))
  pure ({ s with username_data := ud, message_data := md },
        { msg with username_ := u, message_ := m })

/-- Where `handle_list` sends a page: to everybody when the request's username is
`"__ALL"`, else to the requesting address. -/
def list_send (users : online_users) (username : Str) (client_address : sockaddr_in)
    (msg : chat_message) : List datagram :=
  if username == lit "__ALL" then send_all msg (lit "__ALL") users true
  else [(client_address, msg)]

/-- One iteration of the loop of `handle_list` over the registry, for the user
named `name`. -/
def list_step (users : online_users) (username : Str) (client_address : sockaddr_in)
    (s : list_state) (name : Str) : Option list_state := do
  let s ←
    if s.using_username then
      if decide (size_minus s.username_size (name.length + 1) ≥ 0) then do
        let d ← memcpy s.username_data s.username_ptr name
        let d ← store d (s.username_ptr + name.length) 58
        let size := to_int (size_minus s.username_size (name.length + 1))
        let d ← terminate_at d ((MAX_USERNAME_LENGTH : Int) - size)
        pure { s with username_data := d
                      username_ptr := s.username_ptr + name.length + 1
                      username_size := size }
      else pure { s with using_username := false }
    else pure s
  if !s.using_username then
    if decide (size_minus s.message_size (name.length + 1) ≥ 0) then do
      let d ← memcpy s.message_data s.message_ptr name
      let d ← store d (s.message_ptr + name.length) 58
      pure { s with message_data := d
                    message_ptr := s.message_ptr + name.length + 1
                    message_size := to_int (size_minus s.message_size (name.length + 1)) }
    else do
      let (s, msg) ← list_page s
      pure { s with sent := s.sent ++ list_send users username client_address msg
                    username_size := MAX_USERNAME_LENGTH
                    message_size := MAX_MESSAGE_LENGTH
                    username_ptr := 0
                    message_ptr := 0
                    using_username := false }
  else pure s

/-- The loop `for (const auto user: online_users)` of `handle_list`. -/
def list_loop (users : online_users) (username : Str) (client_address : sockaddr_in) :
    list_state → List (Str × sockaddr_in) → Option list_state
  | s, [] => some s
  | s, user :: rest =>
    (list_step users username client_address s user.1).bind fun s =>
      list_loop users username client_address s rest

/-- The locals of `handle_list` as initialised at its start. -/
def list_init : list_state :=
  { username_size := MAX_USERNAME_LENGTH
    message_size := MAX_MESSAGE_LENGTH
    username_data := List.replicate MAX_USERNAME_LENGTH 0
    username_ptr := 0
    message_data := List.replicate MAX_MESSAGE_LENGTH 0
    message_ptr := 0
    using_username := true
    sent := [] }

/-- The block of `handle_list` after the loop that places `USER_END`: into the
username buffer when it has four bytes left; otherwise the size is raised by one
and `using_username` is cleared (the block for the body buffer that follows in the
source is empty). -/
def list_end (s : list_state) : Option list_state :=
  if s.using_username then
    if s.username_size ≥ 4 then do
      let d ← memcpy_at s.username_data ((MAX_USERNAME_LENGTH : Int) - s.username_size) USER_END
      pure { s with username_data := d
                    username_size := to_int (size_minus s.username_size (USER_END.length + 1)) }
    else pure { s with username_size := s.username_size + 1, using_username := false }
  else pure s

/-- The handler `handle_list`. -/
def handle_list (users : online_users) (username _msg : Str)
    (client_address : sockaddr_in) : Option (online_users × List datagram) := do
  let s ← list_loop users username client_address list_init users
  let s ← list_end s
  let (s, msg) ← list_page s
  pure (users, s.sent ++ list_send users username client_address msg)

/-- The handler `handle_join`. -/
def handle_join (users : online_users) (username _msg : Str)
    (client_address : sockaddr_in) : Option (online_users × List datagram) :=
  if (map_find users username).isSome then
    some (users, handle_error ERR_USER_ALREADY_ONLINE client_address)
  else do
    let users := map_assign users username client_address
    let msg := jack_msg
    let others ← (users.filter fun user => user.1 != username).mapM fun user => do
      let broadcastMsg ← broadcast_msg (lit "Server") (username ++ lit " has joined the chat.")
      pure (user.2, broadcastMsg)
    let (users, pages) ← handle_list users USER_ALL [] client_address
    pure (users, [(client_address, msg)] ++ others ++ pages)

/-- The handler `handle_jack`. -/
def handle_jack (users : online_users) (_username _msg : Str)
    (client_address : sockaddr_in) : Option (online_users × List datagram) :=
  some (users, handle_error ERR_UNEXPECTED_MSG client_address)

/-- The search `message.find(':')`: position of the first byte equal to `c`. -/
def find_char : Str → Nat → Option Nat
  | [], _ => none
  | b :: rest, c => if b == c then some 0 else (find_char rest c).map (· + 1)

/-- The handler `handle_directmessage`. -/
def handle_directmessage (users : online_users) (sender_username message : Str)
    (sender_address : sockaddr_in) : Option (online_users × List datagram) :=
  match find_char message 58 with
  | some separator_pos =>
    let recipient_username := message.take separator_pos
    let actual_message := message.drop (separator_pos + 1)
    match map_find users recipient_username with
    | some it => do
      let dm ← dm_msg sender_username actual_message
      pure (users, [(it, dm)])
    | none => some (users, handle_error ERR_UNEXPECTED_MSG sender_address)
  | none => some (users, handle_error ERR_UNEXPECTED_MSG sender_address)

/-- The comparison `strcmp`: zero exactly when the two strings are equal. -/
def strcmp : Str → Str → Int
  | [], [] => 0
  | [], b :: _ => -(b : Int)
  | a :: _, [] => (a : Int)
  | a :: as, b :: bs => if a == b then strcmp as bs else (a : Int) - (b : Int)

/-- The library call `inet_ntoa(in)`: it formats the address as dotted decimal into
one static buffer, which every call overwrites, and returns the address of that
buffer.  The call is modelled by the content of the buffer after it; the argument
`_static_buffer` is the content before. -/
def inet_ntoa (_static_buffer : Str) (s_addr : Nat) : Str :=
  let part (k : Nat) : Str := lit (toString (s_addr / 256 ^ k % 256))
  part 0 ++ [46] ++ part 1 ++ [46] ++ part 2 ++ [46] ++ part 3

/-- The expression `strcmp(inet_ntoa(a), inet_ntoa(b))` of `handle_leave`: both calls
return the address of the same static buffer, so `strcmp` compares the buffer, as
the second call left it, with itself. -/
def strcmp_inet_ntoa (static_buffer : Str) (a b : Nat) : Int :=
  let static_buffer := inet_ntoa static_buffer a
  let static_buffer := inet_ntoa static_buffer b
  strcmp static_buffer static_buffer

/-- The search loop of `handle_leave`: `username` ends as the key of the last entry
that passes the address test (the loop has no `break`). -/
def leave_username (users : online_users) (client_address : sockaddr_in) : Str :=
  users.foldl (fun username user =>
    if strcmp_inet_ntoa [] client_address.s_addr user.2.s_addr == 0 &&
        client_address.sin_port == user.2.sin_port then user.1
    else username) []

/-- The handler `handle_leave`. -/
def handle_leave (users : online_users) (_username _msg : Str)
    (client_address : sockaddr_in) : Option (online_users × List datagram) :=
  let username := leave_username users client_address
  if username.length == 0 then
    some (users, handle_error ERR_UNKNOWN_USERNAME client_address)
  else if (map_find users username).isSome then do
    let users := map_erase users username
    let msg := lack_msg
    let leave := chat_message.zeroed .LEAVE
    let u ← memcpy_n leave.username_ (username ++ [0]) (username.length + 1)
    let leave := { leave with username_ := u }
    pure (users, [(client_address, msg)] ++ send_all leave username users false)
  else
    some (users, handle_error ERR_UNKNOWN_USERNAME client_address)

/-- The handler `handle_lack`. -/
def handle_lack (users : online_users) (_username _msg : Str)
    (client_address : sockaddr_in) : Option (online_users × List datagram) :=
  some (users, handle_error ERR_UNEXPECTED_MSG client_address)

/-- The handler `handle_exit`: EXIT goes to every session, the registry is cleared
and the loop flag is set. -/
def handle_exit (users : online_users) (_username _msg : Str)
    (_client_address : sockaddr_in) : online_users × List datagram × Bool :=
  ([], users.map (fun user => (user.2, exit_msg)), true)

/-- The group registry, the global `std::map<std::string, std::vector<std::string>>
groups`, as the list of its entries in key order. -/
abbrev group_map := List (Str × List Str)

/-- A call `getline(iss, token, delim)` on a `std::istringstream`.  The stream is
`some rest` while it is good and `rest` is unread, `none` once it has met its end.
The call yields the token (`none` when it fails, which it does on a stream that is
not good or holds nothing more) and the stream after it; meeting the end of the
text while reading leaves the stream not good. -/
def getline (iss : Option Str) (delim : Nat) : Option Str × Option Str :=
  match iss with
  | none => (none, none)
  | some rest =>
    match find_char rest delim with
    | some pos => (some (rest.take pos), some (rest.drop (pos + 1)))
    | none => (if rest.isEmpty then none else some rest, none)

/-- The loop `while (getline(iss, user, ':'))` of `handle_creategroup`: the tokens
read until a call fails.  Every successful call but the last consumes a delimiter,
so a bound of one more than the length of the text is never reached. -/
def getline_loop : Nat → Option Str → List Str
  | 0, _ => []
  | bound + 1, iss =>
    match getline iss 58 with
    | (some user, iss) => user :: getline_loop bound iss
    | (none, _) => []

/-- The text `"Group '" + groupname + "' created successfully."`. -/
def group_created_text (groupname : Str) : Str :=
  lit "Group " ++ [39] ++ groupname ++ [39] ++ lit " created successfully."

/-- The handler `handle_creategroup`; it reads the registry of sessions and reads
and writes the registry of groups. -/
def handle_creategroup (users : online_users) (groups : group_map) (_username msg : Str)
    (client_address : sockaddr_in) : Option (group_map × List datagram) :=
  let (first, iss) := getline (some msg) 58
  let groupname := first.getD []
  if (map_find groups groupname).isSome then
    some (groups, handle_error ERR_UNEXPECTED_MSG client_address)
  else
    let usernames := (getline_loop (msg.length + 1) iss).filter fun user =>
      (map_find users user).isSome
    let usernames :=
      match users.find? (fun user_pair =>
          client_address.s_addr == user_pair.2.s_addr &&
          client_address.sin_port == user_pair.2.sin_port) with
      | some user_pair =>
        if usernames.contains user_pair.1 then usernames else usernames ++ [user_pair.1]
      | none => usernames
    if usernames.length < 2 then
      some (groups, handle_error ERR_UNEXPECTED_MSG client_address)
    else do
      let groups := map_assign groups groupname usernames
      let confirm_msg ← broadcast_msg (lit "Server") (group_created_text groupname)
      pure (groups, [(client_address, confirm_msg)])

/-- The handler `handle_messagegroup`; the group name is its `username` argument. -/
def handle_messagegroup (users : online_users) (groups : group_map) (username message : Str)
    (client_address : sockaddr_in) : Option (List datagram) :=
  let groupname := username
  match map_find groups groupname with
  | none => some (handle_error ERR_UNKNOWN_USERNAME client_address)
  | some members => do
    let gm_msg ← messagegroup_msg groupname message
    pure (members.filterMap fun username =>
      (map_find users username).map fun user_it => (user_it, gm_msg))

/-- What the server keeps between datagrams: the session registry of `server`, the
global group registry and the flag `exit_loop`. -/
structure server_state where
  online_users : online_users
  groups : group_map
  exit_loop : Bool
deriving DecidableEq, Repr

/-- The call through the table `handle_messages[type]`, entries 0 to 10 in the order
of the table; the last entry is the handler for a received ERROR, which does
nothing. -/
def handle_messages (type : Nat) (st : server_state) (username msg : Str)
    (client_address : sockaddr_in) : Option (server_state × List datagram) :=
  let with_users (r : Option (chat.online_users × List datagram)) :=
    r.map fun r => ({ st with online_users := r.1 }, r.2)
  match type with
  | 0 => with_users (handle_join st.online_users username msg client_address)
  | 1 => with_users (handle_jack st.online_users username msg client_address)
  | 2 => with_users (handle_broadcast st.online_users username msg client_address)
  | 3 => with_users (handle_directmessage st.online_users username msg client_address)
  | 4 => with_users (handle_list st.online_users username msg client_address)
  | 5 => with_users (handle_leave st.online_users username msg client_address)
  | 6 => with_users (handle_lack st.online_users username msg client_address)
  | 7 =>
    let r := handle_exit st.online_users username msg client_address
    some ({ st with online_users := r.1, exit_loop := r.2.2 }, r.2.1)
  | 8 =>
    (handle_creategroup st.online_users st.groups username msg client_address).map
      fun r => ({ st with groups := r.1 }, r.2)
  | 9 =>
    (handle_messagegroup st.online_users st.groups username msg client_address).map
      fun sent => (st, sent)
  | _ => some (st, [])

/-- The body of the receive loop for one datagram from `client_address`: a datagram
of another size than the frame is dropped, the three strings are read, and a valid
type is dispatched with the username and the body (the group name is not passed
on). -/
def server_step (st : server_state) (buffer : List Nat) (client_address : sockaddr_in) :
    Option (server_state × List datagram) :=
  if buffer.length = 1 + MAX_USERNAME_LENGTH + MAX_MESSAGE_LENGTH + MAX_USERNAME_LENGTH then
    match receive buffer with
    | none => none
    | some r =>
      if is_valid_type r.type then handle_messages r.type st r.username r.msg client_address
      else some (st, [])
  else some (st, [])

/-! ## chat_client.cpp -/

/-- Modelled from the spec: `split` of util.hpp, which is not among the sources.  The
spec calls the command line colon-delimited; the line is cut at every delimiter, so
a line without delimiter is one part. -/
def split_from : Str → Str → Nat → List Str
  | cur, [], _ => [cur]
  | cur, b :: rest, delim =>
    if b == delim then cur :: split_from [] rest delim else split_from (cur ++ [b]) rest delim

/-- Modelled from the spec: `split(s, delim)` of util.hpp, the parts of `s` between
its delimiters. -/
def split (s : Str) (delim : Nat) : List Str := split_from [] s delim

/-- Modelled from the spec: `string_to_int` of util.hpp, which is not among the
sources, the compile-time hash that lets `to_type` switch on a string.  The spec has
each command word recognised and every other leading token UNKNOWN, so the value is
taken to determine the string: its bytes as digits in base 256 after a leading 1. -/
def string_to_int (s : Str) : Nat := s.foldl (fun acc b => acc * 256 + b) 1

/-- The function `to_type`: the first case label that matches. -/
def to_type (cmd : Str) : chat_type :=
  let v := string_to_int cmd
  if v == string_to_int (lit "join") then .JOIN
  else if v == string_to_int (lit "bc") then .BROADCAST
  else if v == string_to_int (lit "creategroup") then .CREATEGROUP
  else if v == string_to_int (lit "msggroup") then .MESSAGEGROUP
  else if v == string_to_int (lit "dm") then .DIRECTMESSAGE
  else if v == string_to_int (lit "list") then .LIST
  else if v == string_to_int (lit "leave") then .LEAVE
  else if v == string_to_int (lit "exit") then .EXIT
  else .UNKNOWN

/-- The flags of the control loop of `main`: the atomic `sent_leave` and the local
`exit_loop`. -/
structure client_state where
  sent_leave : Bool
  exit_loop : Bool
deriving DecidableEq, Repr

/-- The text `cmds[2] + ":" + cmds[3] + ...` that the DIRECTMESSAGE and MESSAGEGROUP
cases put together again. -/
def rejoin (first : Str) (more : List Str) : Str :=
  more.foldl (fun acc cmd => acc ++ [58] ++ cmd) first

/-- The first half of the body of the control loop of `main`, for one line `result`
taken from the GUI channel by the client of `username`: the new flags and the frames
passed to `sock.sendto` for the server, in order.  With `sent_leave` set the line is
not taken from the channel. -/
def gui_command (username : Str) (st : client_state) (result : Str) :
    Option (client_state × List chat_message) :=
  if st.sent_leave then some (st, [])
  else
    let cmds := split result 58
    if cmds.length > 1 then
      match to_type (cmds.headD []) with
      | .EXIT => some ({ st with exit_loop := true }, [exit_msg])
      | .LEAVE => some ({ st with sent_leave := true }, [leave_msg])
      | .LIST => some (st, [])
      | .DIRECTMESSAGE =>
        match cmds with
        | _ :: recipient_username :: first :: more => do
          let actual_message := rejoin first more
          let dm ← dm_msg username (recipient_username ++ [58] ++ actual_message)
          pure (st, [dm])
        | _ => some (st, [])
      | .CREATEGROUP =>
        match cmds with
        | _ :: groupname :: usernames => do
          let group_msg ← creategroup_msg groupname usernames
          pure (st, [group_msg])
        | _ => some (st, [])
      | .MESSAGEGROUP =>
        match cmds with
        | _ :: groupname :: first :: more => do
          let msg ← messagegroup_msg groupname (rejoin first more)
          pure (st, [msg])
        | _ => some (st, [])
      | _ => some (st, [])
    else do
      let msg ← broadcast_msg username result
      pure (st, [msg])

/-- The server handling, one after the other, the frames a client at
`client_address` has sent. -/
def server_steps (st : server_state) (client_address : sockaddr_in) :
    List chat_message → Option (server_state × List datagram)
  | [] => some (st, [])
  | frame :: frames =>
    (server_step st frame.bytes client_address).bind fun r =>
      (server_steps r.1 client_address frames).map fun r2 => (r2.1, r.2 ++ r2.2)

/-! ## Auxiliary definitions for the statements about `handle_list` -/

/-- The state of `handle_list` while it fills the username buffer: `pre` is what has
been written, nothing has been sent, the body buffer is untouched. -/
def filling (pre : List Nat) : list_state :=
  { username_size := ((MAX_USERNAME_LENGTH - pre.length : Nat) : Int)
    message_size := MAX_MESSAGE_LENGTH
    username_data := pre ++ List.replicate (MAX_USERNAME_LENGTH - pre.length) 0
    username_ptr := pre.length
    message_data := List.replicate MAX_MESSAGE_LENGTH 0
    message_ptr := 0
    using_username := true
    sent := [] }

/-- The bytes `"<name>:"` for every user, in registry order. -/
def names_text (users : List (Str × sockaddr_in)) : List Nat :=
  (users.map fun user => user.1 ++ [58]).flatten

/-! ## Auxiliary definitions for the statements about error frames -/

/-- No datagram of the list carries an ERROR frame. -/
def no_error_frame (sent : List datagram) : Prop :=
  ∀ d ∈ sent, d.2.type_ ≠ chat_type.ERROR.toNat

/-- The datagrams are one ERROR frame to `A`. -/
def one_error_to (A : sockaddr_in) (sent : List datagram) : Prop :=
  ∃ e, sent = [(A, error_msg e)]

/-! ## Lemmas on arrays and strings -/

theorem memcpy_zero (a : List Nat) (s : Str) (h : s.length ≤ a.length) :
    memcpy a 0 s = some (s ++ a.drop s.length) := by
  simp [memcpy, h]

theorem store_append (s rest : List Nat) (v : Nat) (h : rest ≠ []) :
    store (s ++ rest) s.length v = some (s ++ v :: rest.tail) := by
  cases rest with
  | nil => exact absurd rfl h
  | cons r rs => simp [store]

/-- A string shorter than the array is copied and terminated in place. -/
theorem copy_terminated_eq (a : List Nat) (s : Str) (h : s.length < a.length) :
    copy_terminated a s = some (s ++ 0 :: a.drop (s.length + 1)) := by
  have hne : a.drop s.length ≠ [] := by
    intro h0
    have := congrArg List.length h0
    simp at this
    omega
  unfold copy_terminated
  rw [memcpy_zero a s (Nat.le_of_lt h)]
  show store (s ++ a.drop s.length) s.length 0 = _
  rw [store_append s _ 0 hne]
  simp [List.tail_drop]

/-- A string at least as long as the array makes the pair of statements write
outside the array. -/
theorem copy_terminated_none (a : List Nat) (s : Str) (h : a.length ≤ s.length) :
    copy_terminated a s = none := by
  unfold copy_terminated memcpy
  split
  · show store _ s.length 0 = none
    simp only [store]
    rw [if_neg]
    simp
    omega
  · rfl

theorem copy_terminated_zeros (n : Nat) (s : Str) (h : s.length < n) :
    copy_terminated (List.replicate n 0) s
      = some (s ++ 0 :: List.replicate (n - (s.length + 1)) 0) := by
  rw [copy_terminated_eq _ _ (by simpa using h), List.drop_replicate]

theorem c_str_terminated (s rest : List Nat) (h : 0 ∉ s) :
    c_str (s ++ 0 :: rest) = some s := by
  unfold c_str
  have h1 : (s ++ 0 :: rest).contains 0 = true := by simp
  rw [if_pos h1]
  congr 1
  induction s with
  | nil => simp
  | cons b bs ih =>
    have hb : b ≠ 0 := fun e => h (by simp [e])
    have hbs : 0 ∉ bs := fun e => h (by simp [e])
    simp [List.takeWhile_cons, hb]
    simpa using ih hbs

/-- Reading back a frame whose three arrays each hold a NUL-free string followed by
a terminator. -/
theorem receive_terminated (t : Nat) (u ru b rb g rg : List Nat)
    (hu : 0 ∉ u) (hb : 0 ∉ b) (hg : 0 ∉ g)
    (hlu : (u ++ 0 :: ru).length = MAX_USERNAME_LENGTH)
    (hlb : (b ++ 0 :: rb).length = MAX_MESSAGE_LENGTH)
    (hlg : (g ++ 0 :: rg).length = MAX_USERNAME_LENGTH) :
    receive (chat_message.bytes ⟨t, u ++ 0 :: ru, b ++ 0 :: rb, g ++ 0 :: rg⟩)
      = some ⟨t, u, b, g⟩ := by
  have e1 : buffer_username (chat_message.bytes ⟨t, u ++ 0 :: ru, b ++ 0 :: rb, g ++ 0 :: rg⟩)
      = some u := by
    simp only [buffer_username, chat_message.bytes, List.drop_succ_cons, List.drop_zero,
      List.append_assoc, List.cons_append]
    exact c_str_terminated u _ hu
  have e2 : buffer_msg (chat_message.bytes ⟨t, u ++ 0 :: ru, b ++ 0 :: rb, g ++ 0 :: rg⟩)
      = some b := by
    simp only [buffer_msg, chat_message.bytes]
    rw [Nat.add_comm 1, List.drop_succ_cons, List.append_assoc, ← hlu, List.drop_left,
      List.append_assoc, List.cons_append]
    exact c_str_terminated b _ hb
  have e3 : buffer_groupname (chat_message.bytes ⟨t, u ++ 0 :: ru, b ++ 0 :: rb, g ++ 0 :: rg⟩)
      = some g := by
    simp only [buffer_groupname, chat_message.bytes]
    have : 1 + MAX_USERNAME_LENGTH + MAX_MESSAGE_LENGTH
        = ((u ++ 0 :: ru) ++ (b ++ 0 :: rb)).length + 1 := by
      rw [List.length_append, hlu, hlb]; omega
    rw [this, List.drop_succ_cons, List.drop_left]
    exact c_str_terminated g _ hg
  have hlen : (chat_message.bytes ⟨t, u ++ 0 :: ru, b ++ 0 :: rb, g ++ 0 :: rg⟩).length
      = 1 + MAX_USERNAME_LENGTH + MAX_MESSAGE_LENGTH + MAX_USERNAME_LENGTH := by
    simp only [chat_message.bytes, List.length_cons, List.length_append] at *
    omega
  unfold receive
  rw [if_pos hlen, e1, e2, e3]
  rfl

/-! ## The encoders on fields that fit -/

/-- The frame built by `broadcast_msg`, `dm_msg` and `list_msg` from fields that fit. -/
theorem username_message_msg_eq (t : chat_type) (username message : Str)
    (hu : username.length < MAX_USERNAME_LENGTH) (hm : message.length < MAX_MESSAGE_LENGTH) :
    username_message_msg t username message = some
      ⟨t.toNat,
       username ++ 0 :: List.replicate (MAX_USERNAME_LENGTH - (username.length + 1)) 0,
       message ++ 0 :: List.replicate (MAX_MESSAGE_LENGTH - (message.length + 1)) 0,
       List.replicate MAX_USERNAME_LENGTH 0⟩ := by
  unfold username_message_msg
  simp only [chat_message.zeroed, copy_terminated_zeros _ _ hu, copy_terminated_zeros _ _ hm]
  rfl

/-- Reading back the frame of `broadcast_msg`, `dm_msg` and `list_msg`. -/
theorem username_message_msg_receive (t : chat_type) (username message : Str)
    (hu : 0 ∉ username) (hul : username.length < MAX_USERNAME_LENGTH)
    (hm : 0 ∉ message) (hml : message.length < MAX_MESSAGE_LENGTH) :
    ∃ m, username_message_msg t username message = some m ∧
      receive m.bytes = some ⟨t.toNat, username, message, []⟩ := by
  refine ⟨_, username_message_msg_eq t username message hul hml, ?_⟩
  have hz : List.replicate MAX_USERNAME_LENGTH 0
      = ([] : List Nat) ++ 0 :: List.replicate 63 0 := rfl
  rw [hz]
  apply receive_terminated _ _ _ _ _ _ _ hu hm (by simp)
  · simp only [List.length_append, List.length_cons, List.length_replicate]; omega
  · simp only [List.length_append, List.length_cons, List.length_replicate]; omega
  · rfl

/-- The frame built by `messagegroup_msg` from fields that fit, read back. -/
theorem messagegroup_msg_receive (groupname message : Str)
    (hg : 0 ∉ groupname) (hgl : groupname.length < MAX_USERNAME_LENGTH)
    (hm : 0 ∉ message) (hml : message.length < MAX_MESSAGE_LENGTH) :
    ∃ m, messagegroup_msg groupname message = some m ∧
      receive m.bytes = some ⟨chat_type.MESSAGEGROUP.toNat, [], message, groupname⟩ := by
  have e : messagegroup_msg groupname message = some
      ⟨chat_type.MESSAGEGROUP.toNat, List.replicate MAX_USERNAME_LENGTH 0,
       message ++ 0 :: List.replicate (MAX_MESSAGE_LENGTH - (message.length + 1)) 0,
       groupname ++ 0 :: List.replicate (MAX_USERNAME_LENGTH - (groupname.length + 1)) 0⟩ := by
    unfold messagegroup_msg
    simp only [chat_message.zeroed, copy_terminated_zeros _ _ hgl,
      copy_terminated_zeros _ _ hml]
    rfl
  refine ⟨_, e, ?_⟩
  have hz : List.replicate MAX_USERNAME_LENGTH 0
      = ([] : List Nat) ++ 0 :: List.replicate 63 0 := rfl
  rw [hz]
  apply receive_terminated _ _ _ _ _ _ _ (by simp) hm hg
  · rfl
  · simp only [List.length_append, List.length_cons, List.length_replicate]; omega
  · simp only [List.length_append, List.length_cons, List.length_replicate]; omega

/-- The frame built by `join_msg` on fields that fit, read back field by field (the
group name array keeps whatever the memory held). -/
theorem join_msg_receive (stack : chat_message) (username : Str) (hs : stack.sized)
    (hu : 0 ∉ username) (hul : username.length < MAX_USERNAME_LENGTH) :
    ∃ m, join_msg stack username = some m ∧
      buffer_type m.bytes = chat_type.JOIN.toNat ∧
      buffer_username m.bytes = some username ∧ buffer_msg m.bytes = some [] := by
  obtain ⟨h1, h2, -⟩ := hs
  have hm : store stack.message_ 0 0 = some (0 :: stack.message_.tail) := by
    cases hc : stack.message_ with
    | nil => rw [hc] at h2; simp [MAX_MESSAGE_LENGTH] at h2
    | cons x xs => simp [store]
  have e : join_msg stack username = some
      ⟨chat_type.JOIN.toNat, username ++ 0 :: stack.username_.drop (username.length + 1),
       0 :: stack.message_.tail, stack.groupname_⟩ := by
    unfold join_msg
    simp only [copy_terminated_eq _ _ (h1 ▸ hul), hm]
    rfl
  have hlu : (username ++ 0 :: stack.username_.drop (username.length + 1)).length
      = MAX_USERNAME_LENGTH := by
    simp only [List.length_append, List.length_cons, List.length_drop]; omega
  refine ⟨_, e, rfl, ?_, ?_⟩
  · simp only [buffer_username, chat_message.bytes, List.drop_succ_cons, List.drop_zero,
      List.append_assoc, List.cons_append]
    exact c_str_terminated username _ hu
  · simp only [buffer_msg, chat_message.bytes]
    rw [Nat.add_comm 1, List.drop_succ_cons, List.append_assoc, ← hlu, List.drop_left,
      List.cons_append]
    exact c_str_terminated [] _ (by simp)

/-! ## The username list of `creategroup_msg` -/

theorem intercalate_cons (u : Str) (us : List Str) :
    [58].intercalate (u :: us) = u ++ (us.map fun x => 58 :: x).flatten := by
  induction us generalizing u with
  | nil => simp [List.intercalate]
  | cons v vs ih =>
    have := ih v
    simp [List.intercalate] at this ⊢
    exact this

theorem concatenatedUsernames_nonempty (acc : Str) (us : List Str) (hacc : acc ≠ [])
    (hlen : (acc ++ (us.map fun x => 58 :: x).flatten).length < MAX_MESSAGE_LENGTH - 1) :
    concatenatedUsernames acc us = acc ++ (us.map fun x => 58 :: x).flatten := by
  induction us generalizing acc with
  | nil => simp [concatenatedUsernames]
  | cons u us ih =>
    simp only [List.map_cons, List.flatten_cons, List.length_append, List.length_cons] at hlen
    have hne : acc.isEmpty = false := by cases acc <;> simp_all
    unfold concatenatedUsernames
    simp only [MAX_MESSAGE_LENGTH] at *
    rw [if_neg (by omega)]
    simp only [hne, Bool.not_false, if_true]
    rw [ih (acc ++ [58] ++ u) (by simp [hacc])]
    · simp
    · simp only [List.length_append, List.length_cons, List.length_nil]
      omega

/-- The loop of `creategroup_msg` yields the colon-joined usernames when the first
username is not empty and the joined text stays below `MAX_MESSAGE_LENGTH - 1`. -/
theorem concatenatedUsernames_eq (usernames : List Str)
    (hfirst : usernames.head? ≠ some [])
    (hlen : ∀ u ∈ usernames, u.length < MAX_USERNAME_LENGTH)
    (hjoin : ([58].intercalate usernames).length < MAX_MESSAGE_LENGTH - 1) :
    concatenatedUsernames [] usernames = [58].intercalate usernames := by
  cases usernames with
  | nil => simp [concatenatedUsernames, List.intercalate]
  | cons u us =>
    have hu : u ≠ [] := fun e => hfirst (by simp [e])
    have hul := hlen u (by simp)
    rw [intercalate_cons] at hjoin ⊢
    unfold concatenatedUsernames
    simp only [MAX_USERNAME_LENGTH, MAX_MESSAGE_LENGTH] at *
    rw [if_neg (by simp; omega)]
    simp only [List.isEmpty_nil, Bool.not_true, List.nil_append]
    exact concatenatedUsernames_nonempty u us hu hjoin

theorem intercalate_nul_free (usernames : List Str) (h : ∀ u ∈ usernames, 0 ∉ u) :
    0 ∉ [58].intercalate usernames := by
  cases usernames with
  | nil => simp [List.intercalate]
  | cons u us =>
    rw [intercalate_cons]
    intro hmem
    rcases List.mem_append.mp hmem with h1 | h1
    · exact h u (by simp) h1
    · obtain ⟨l, hl, h0⟩ := List.mem_flatten.mp h1
      obtain ⟨x, hx, rfl⟩ := List.mem_map.mp hl
      rcases List.mem_cons.mp h0 with h2 | h2
      · exact absurd h2 (by decide)
      · exact h x (by simp [hx]) h2

/-- The frame built by `creategroup_msg`, read back. -/
theorem creategroup_msg_receive (groupname : Str) (usernames : List Str)
    (hg : 0 ∉ groupname) (hgl : groupname.length < MAX_USERNAME_LENGTH)
    (hus : ∀ u ∈ usernames, 0 ∉ u ∧ u.length < MAX_USERNAME_LENGTH)
    (hfirst : usernames.head? ≠ some [])
    (hjoin : ([58].intercalate usernames).length < MAX_MESSAGE_LENGTH - 1) :
    ∃ m, creategroup_msg groupname usernames = some m ∧
      receive m.bytes
        = some ⟨chat_type.CREATEGROUP.toNat, [], [58].intercalate usernames, groupname⟩ := by
  have hc := concatenatedUsernames_eq usernames hfirst (fun u hu => (hus u hu).2) hjoin
  have hjl : ([58].intercalate usernames).length < MAX_MESSAGE_LENGTH := by
    simp only [MAX_MESSAGE_LENGTH] at *; omega
  have htake : groupname.take (MAX_USERNAME_LENGTH - 1) = groupname :=
    List.take_of_length_le (by simp only [MAX_USERNAME_LENGTH] at *; omega)
  have e : creategroup_msg groupname usernames = some
      ⟨chat_type.CREATEGROUP.toNat, List.replicate MAX_USERNAME_LENGTH 0,
       [58].intercalate usernames ++ 0 ::
         List.replicate (MAX_MESSAGE_LENGTH - (([58].intercalate usernames).length + 1)) 0,
       groupname ++ 0 :: List.replicate (MAX_USERNAME_LENGTH - (groupname.length + 1)) 0⟩ := by
    unfold creategroup_msg
    simp only [chat_message.zeroed, htake, hc, copy_terminated_zeros _ _ hgl,
      copy_terminated_zeros _ _ hjl]
    rfl
  refine ⟨_, e, ?_⟩
  have hz : List.replicate MAX_USERNAME_LENGTH 0
      = ([] : List Nat) ++ 0 :: List.replicate 63 0 := rfl
  rw [hz]
  apply receive_terminated _ _ _ _ _ _ _ (by simp)
    (intercalate_nul_free usernames fun u hu => (hus u hu).1) hg
  · rfl
  · simp only [List.length_append, List.length_cons, List.length_replicate]; omega
  · simp only [List.length_append, List.length_cons, List.length_replicate]; omega

/-! ## The encoders on fields that do not fit -/

/-- An over-long username or body makes `broadcast_msg`, `dm_msg` and `list_msg`
write outside the field: nothing is cut. -/
theorem username_message_msg_overflow (t : chat_type) (username message : Str)
    (h : MAX_USERNAME_LENGTH ≤ username.length ∨ MAX_MESSAGE_LENGTH ≤ message.length) :
    username_message_msg t username message = none := by
  unfold username_message_msg
  rcases h with h | h
  · have h1 : copy_terminated (List.replicate MAX_USERNAME_LENGTH 0) username = none :=
      copy_terminated_none _ _ (by simpa using h)
    simp only [chat_message.zeroed, h1]
    rfl
  · have h1 : copy_terminated (List.replicate MAX_MESSAGE_LENGTH 0) message = none :=
      copy_terminated_none _ _ (by simpa using h)
    simp only [chat_message.zeroed, h1]
    cases copy_terminated (List.replicate MAX_USERNAME_LENGTH 0) username <;> rfl

theorem join_msg_overflow (stack : chat_message) (username : Str) (hs : stack.sized)
    (h : MAX_USERNAME_LENGTH ≤ username.length) : join_msg stack username = none := by
  have h1 : copy_terminated stack.username_ username = none :=
    copy_terminated_none _ _ (by simpa [hs.1] using h)
  unfold join_msg
  simp only [h1]
  rfl

theorem messagegroup_msg_overflow (groupname message : Str)
    (h : MAX_USERNAME_LENGTH ≤ groupname.length ∨ MAX_MESSAGE_LENGTH ≤ message.length) :
    messagegroup_msg groupname message = none := by
  unfold messagegroup_msg
  rcases h with h | h
  · have h1 : copy_terminated (List.replicate MAX_USERNAME_LENGTH 0) groupname = none :=
      copy_terminated_none _ _ (by simpa using h)
    simp only [chat_message.zeroed, h1]
    rfl
  · have h1 : copy_terminated (List.replicate MAX_MESSAGE_LENGTH 0) message = none :=
      copy_terminated_none _ _ (by simpa using h)
    simp only [chat_message.zeroed, h1]
    cases copy_terminated (List.replicate MAX_USERNAME_LENGTH 0) groupname <;> rfl

theorem receive_fields (buffer : List Nat) (r : received) (h : receive buffer = some r) :
    buffer_type buffer = r.type ∧ buffer_username buffer = some r.username ∧
      buffer_msg buffer = some r.msg ∧ buffer_groupname buffer = some r.groupname := by
  unfold receive at h
  split at h
  · cases h1 : buffer_username buffer with
    | none => rw [h1] at h; exact absurd h (by simp)
    | some u =>
      cases h2 : buffer_msg buffer with
      | none => rw [h1, h2] at h; exact absurd h (by simp)
      | some b =>
        cases h3 : buffer_groupname buffer with
        | none => rw [h1, h2, h3] at h; exact absurd h (by simp)
        | some g =>
          rw [h1, h2, h3] at h
          have h' := Option.some.inj h
          subst h'
          exact ⟨rfl, rfl, rfl, rfl⟩
  · exact absurd h (by simp)

/-- Only `creategroup_msg` cuts its group name to 63 bytes. -/
theorem creategroup_msg_truncates (groupname : Str) (hg : 0 ∉ groupname) :
    ∃ m, creategroup_msg groupname [] = some m ∧
      buffer_groupname m.bytes = some (groupname.take 63) := by
  have h0 : 0 ∉ groupname.take 63 := fun h => hg (List.mem_of_mem_take h)
  have hl : (groupname.take 63).length < MAX_USERNAME_LENGTH := by
    simp only [MAX_USERNAME_LENGTH, List.length_take]; omega
  obtain ⟨m, hm, hr⟩ := creategroup_msg_receive (groupname.take 63) [] h0 hl
    (by simp) (by simp) (by simp [List.intercalate, MAX_MESSAGE_LENGTH])
  refine ⟨m, ?_, (receive_fields _ _ hr).2.2.2⟩
  rw [← hm]
  unfold creategroup_msg
  simp [MAX_USERNAME_LENGTH, List.take_take]

/-! ## The pagination of `handle_list` -/

theorem to_size_t_of_nonneg (n : Nat) (h : n < 2 ^ 64) : to_size_t (n : Int) = n := by
  unfold to_size_t
  have : ((n : Int) % 2 ^ 64) = n := by
    apply Int.emod_eq_of_lt (by omega)
    have : ((2:Int) ^ 64) = ((2 ^ 64 : Nat) : Int) := by norm_num
    rw [this]
    exact_mod_cast h
  rw [this]
  simp

theorem to_int_of_small (n : Nat) (h : n < 2 ^ 31) : to_int n = n := by
  unfold to_int
  have h1 : n % 2 ^ 32 = n := Nat.mod_eq_of_lt (by omega)
  rw [h1, if_pos h]

theorem size_minus_of_le (size n : Nat) (h : n ≤ size) (hs : size < 2 ^ 31) :
    to_int (size_minus (size : Int) n) = ((size - n : Nat) : Int) := by
  unfold size_minus
  rw [to_size_t_of_nonneg size (by omega)]
  have h1 : n % 2 ^ 64 = n := Nat.mod_eq_of_lt (by omega)
  rw [h1]
  have h2 : (size + (2 ^ 64 - n)) % 2 ^ 64 = size - n := by
    have : size + (2 ^ 64 - n) = (size - n) + 2 ^ 64 := by omega
    rw [this, Nat.add_mod_right]
    exact Nat.mod_eq_of_lt (by omega)
  rw [h2]
  exact to_int_of_small _ (by omega)

theorem memcpy_at_end (pre name : List Nat) (k : Nat) (h : name.length ≤ k) :
    memcpy (pre ++ List.replicate k 0) pre.length name
      = some (pre ++ name ++ List.replicate (k - name.length) 0) := by
  unfold memcpy
  rw [if_pos (by simp; omega)]
  simp [List.take_append_eq_append_take, List.drop_append_eq_append_drop, List.drop_replicate]


theorem store_zero_at_end (pre : List Nat) (k : Nat) (h : 0 < k) :
    store_at (pre ++ List.replicate k 0) (pre.length : Int) 0
      = some (pre ++ List.replicate k 0) := by
  unfold store_at store
  rw [if_pos (by omega)]
  simp only [Int.toNat_ofNat]
  rw [if_pos (by simp; omega)]
  congr 1
  rw [List.set_append_right _ _ (Nat.le_refl _)]
  simp only [Nat.sub_self]
  cases k with
  | zero => omega
  | succ j => rfl

theorem terminate_at_end (pre : List Nat) (k : Nat) :
    terminate_at (pre ++ List.replicate k 0) (pre.length : Int)
      = some (pre ++ List.replicate k 0) := by
  unfold terminate_at
  cases k with
  | zero => simp
  | succ j =>
    rw [if_neg (by simp only [List.length_append, List.length_replicate]; omega)]
    exact store_zero_at_end pre (j + 1) (by omega)

/-- One iteration that fits: the name and a colon are appended to the username
buffer. -/
theorem list_step_fits (users : online_users) (username : Str) (A : sockaddr_in)
    (pre name : List Nat) (h : pre.length + name.length + 1 ≤ MAX_USERNAME_LENGTH) :
    list_step users username A (filling pre) name = some (filling (pre ++ name ++ [58])) := by
  simp only [MAX_USERNAME_LENGTH] at h
  have hm := memcpy_at_end pre name (MAX_USERNAME_LENGTH - pre.length)
    (by simp only [MAX_USERNAME_LENGTH]; omega)
  have hc : store (pre ++ name ++ List.replicate (MAX_USERNAME_LENGTH - pre.length - name.length) 0)
      (pre.length + name.length) 58
      = some (pre ++ name ++ [58] ++
          List.replicate (MAX_USERNAME_LENGTH - (pre ++ name ++ [58]).length) 0) := by
    have hk : MAX_USERNAME_LENGTH - pre.length - name.length
        = (MAX_USERNAME_LENGTH - (pre ++ name ++ [58]).length) + 1 := by
      simp only [List.length_append, List.length_cons, List.length_nil, MAX_USERNAME_LENGTH]
      omega
    rw [hk, ← List.length_append, store_append _ _ _ (by simp [List.replicate_succ])]
    simp [List.replicate_succ]
  have hz := size_minus_of_le (MAX_USERNAME_LENGTH - pre.length) (name.length + 1)
    (by simp only [MAX_USERNAME_LENGTH]; omega) (by simp only [MAX_USERNAME_LENGTH]; omega)
  have hsz : ((MAX_USERNAME_LENGTH - pre.length - (name.length + 1) : Nat) : Int)
      = ((MAX_USERNAME_LENGTH - (pre ++ name ++ [58]).length : Nat) : Int) := by
    simp only [List.length_append, List.length_cons, List.length_nil]
    congr 1
    omega
  have hi : (MAX_USERNAME_LENGTH : Int)
      - ((MAX_USERNAME_LENGTH - (pre ++ name ++ [58]).length : Nat) : Int)
      = ((pre ++ name ++ [58]).length : Int) := by
    simp only [List.length_append, List.length_cons, List.length_nil, MAX_USERNAME_LENGTH]
    omega
  have hn := terminate_at_end (pre ++ name ++ [58])
    (MAX_USERNAME_LENGTH - (pre ++ name ++ [58]).length)
  unfold list_step
  simp only [filling, if_true, decide_True, ge_iff_le, Nat.zero_le, hm, hz, hsz, hi]
  simp only [bind, Option.bind, pure, hc, hn]
  simp
  omega


/-- One iteration that does not fit: the test for room compares an unsigned value
with zero, so the name is written all the same and the name or its colon leaves the
64-byte username buffer. -/
theorem list_step_overflows (users : online_users) (username : Str) (A : sockaddr_in)
    (pre name : List Nat) (h : MAX_USERNAME_LENGTH < pre.length + name.length + 1) :
    list_step users username A (filling pre) name = none := by
  simp only [MAX_USERNAME_LENGTH] at h
  unfold list_step
  simp only [filling, if_true, decide_True, ge_iff_le, Nat.zero_le]
  by_cases h1 : name.length ≤ MAX_USERNAME_LENGTH - pre.length
  · rw [memcpy_at_end pre name _ h1]
    simp only [MAX_USERNAME_LENGTH] at h1
    have : store (pre ++ name ++ List.replicate (MAX_USERNAME_LENGTH - pre.length - name.length) 0)
        (pre.length + name.length) 58 = none := by
      unfold store
      rw [if_neg (by simp [MAX_USERNAME_LENGTH]; omega)]
    simp only [bind, Option.bind, this]
  · have : memcpy (pre ++ List.replicate (MAX_USERNAME_LENGTH - pre.length) 0) pre.length name
        = none := by
      unfold memcpy
      rw [if_neg (by simp [MAX_USERNAME_LENGTH] at h1 ⊢; omega)]
    simp only [bind, Option.bind, this]

/-- The loop of `handle_list`: it only ever fills the username buffer, and it is
defined exactly when the names and their colons stay inside its 64 bytes. -/
theorem list_loop_filling (users : online_users) (username : Str) (A : sockaddr_in)
    (rest : List (Str × sockaddr_in)) (pre : List Nat) (hp : pre.length ≤ MAX_USERNAME_LENGTH) :
    list_loop users username A (filling pre) rest
      = if pre.length + (names_text rest).length ≤ MAX_USERNAME_LENGTH then
          some (filling (pre ++ names_text rest))
        else none := by
  induction rest generalizing pre with
  | nil => simp [list_loop, names_text, hp]
  | cons user rest ih =>
    have hlen : (names_text (user :: rest)).length
        = user.1.length + 1 + (names_text rest).length := by
      simp [names_text]
      omega
    have htext : pre ++ names_text (user :: rest)
        = (pre ++ user.1 ++ [58]) ++ names_text rest := by
      simp [names_text]
    unfold list_loop
    by_cases h : pre.length + user.1.length + 1 ≤ MAX_USERNAME_LENGTH
    · rw [list_step_fits users username A pre user.1 h]
      simp only [Option.some_bind]
      rw [ih (pre ++ user.1 ++ [58]) (by simpa using h), hlen, htext]
      simp only [List.length_append, List.length_cons, List.length_nil]
      congr 1
      simp only [eq_iff_iff]
      omega
    · rw [list_step_overflows users username A pre user.1 (by omega)]
      rw [hlen, if_neg (by omega)]
      rfl


theorem store_at_zeros (n : Nat) (h : 0 < n) :
    store_at (List.replicate n 0) 0 0 = some (List.replicate n 0) := by
  cases n with
  | zero => omega
  | succ k => simp [store_at, store, List.replicate_succ]

theorem terminate_at_zeros (n : Nat) (h : 0 < n) :
    terminate_at (List.replicate n 0) 0 = some (List.replicate n 0) := by
  unfold terminate_at
  rw [if_neg (by simp only [List.length_replicate]; omega)]
  exact store_at_zeros n h

theorem memcpy_n_zero (a b : List Nat) : memcpy_n a b (to_size_t 0) = some a := by
  have : to_size_t 0 = 0 := by decide
  rw [this]
  simp [memcpy_n]

/-- The frame built from the buffers when the username buffer holds `p` followed by
one more byte, which the block overwrites with the terminator, and the body buffer
is untouched. -/
theorem list_page_eq (s : list_state) (p q : List Nat) (x : Nat)
    (hp : p.length < MAX_USERNAME_LENGTH)
    (hsize : s.username_size = ((MAX_USERNAME_LENGTH - p.length : Nat) : Int))
    (hdata : s.username_data = p ++ x :: q)
    (hmsize : s.message_size = MAX_MESSAGE_LENGTH)
    (hmdata : s.message_data = List.replicate MAX_MESSAGE_LENGTH 0) :
    list_page s = some ({ s with username_data := p ++ 0 :: q },
      ⟨chat_type.LIST.toNat, p ++ List.replicate (MAX_USERNAME_LENGTH - p.length) 0,
       List.replicate MAX_MESSAGE_LENGTH 0, List.replicate MAX_USERNAME_LENGTH 0⟩) := by
  obtain ⟨usize, msize, udata, uptr, mdata, mptr, using_, sent⟩ := s
  simp only at hsize hdata hmsize hmdata
  subst hsize hdata hmsize hmdata
  simp only [MAX_USERNAME_LENGTH] at hp
  have hi : (MAX_USERNAME_LENGTH : Int) - ((MAX_USERNAME_LENGTH - p.length : Nat) : Int)
      = (p.length : Int) := by
    simp only [MAX_USERNAME_LENGTH]; omega
  have h1 : terminate_at (p ++ x :: q) (p.length : Int) = some (p ++ 0 :: q) := by
    unfold terminate_at store_at
    rw [if_neg (by simp only [List.length_append, List.length_cons]; omega), if_pos (by omega)]
    simp only [Int.toNat_ofNat]
    rw [store_append p (x :: q) 0 (by simp)]
    rfl
  have h2 : memcpy_n (List.replicate MAX_USERNAME_LENGTH 0) (p ++ 0 :: q)
      (to_size_t (p.length : Int))
      = some (p ++ List.replicate (MAX_USERNAME_LENGTH - p.length) 0) := by
    rw [to_size_t_of_nonneg _ (by omega)]
    unfold memcpy_n
    rw [if_pos (by simp [MAX_USERNAME_LENGTH]; omega)]
    simp [List.drop_replicate]
  have h3 := terminate_at_zeros MAX_MESSAGE_LENGTH (by decide)
  unfold list_page
  simp only [hi, h1, chat_message.zeroed, h2, sub_self, h3, memcpy_n_zero, bind, Option.bind,
    pure]

/-- The frame built from the buffers when the username buffer is full: the terminator
goes behind the buffer, and the frame takes all 64 bytes of it. -/
theorem list_page_full (s : list_state) (p : List Nat)
    (hp : p.length = MAX_USERNAME_LENGTH)
    (hsize : s.username_size = 0)
    (hdata : s.username_data = p)
    (hmsize : s.message_size = MAX_MESSAGE_LENGTH)
    (hmdata : s.message_data = List.replicate MAX_MESSAGE_LENGTH 0) :
    list_page s = some (s,
      ⟨chat_type.LIST.toNat, p,
       List.replicate MAX_MESSAGE_LENGTH 0, List.replicate MAX_USERNAME_LENGTH 0⟩) := by
  obtain ⟨usize, msize, udata, uptr, mdata, mptr, using_, sent⟩ := s
  simp only at hsize hdata hmsize hmdata
  subst hsize hdata hmsize hmdata
  have h1 : terminate_at udata ((MAX_USERNAME_LENGTH : Int) - 0) = some udata := by
    unfold terminate_at
    rw [if_pos (by rw [hp]; simp)]
  have hn : to_size_t ((MAX_USERNAME_LENGTH : Int) - 0) = MAX_USERNAME_LENGTH := by decide
  have h2 : memcpy_n (List.replicate MAX_USERNAME_LENGTH 0) udata MAX_USERNAME_LENGTH
      = some udata := by
    unfold memcpy_n
    rw [if_pos (by simp [hp])]
    simp [← hp]
  have h3 := terminate_at_zeros MAX_MESSAGE_LENGTH (by decide)
  unfold list_page
  simp only [h1, chat_message.zeroed, hn, h2, sub_self, h3, memcpy_n_zero, bind, Option.bind,
    pure]


theorem list_init_eq : list_init = filling [] := rfl

/-- The end block with at least four bytes left in the username buffer. -/
theorem list_end_room (pre : List Nat) (h : pre.length + 4 ≤ MAX_USERNAME_LENGTH) :
    list_end (filling pre) = some
      { filling pre with
        username_data := pre ++ USER_END
          ++ List.replicate (MAX_USERNAME_LENGTH - pre.length - USER_END.length) 0
        username_size := ((MAX_USERNAME_LENGTH - pre.length - (USER_END.length + 1) : Nat) : Int) } := by
  simp only [MAX_USERNAME_LENGTH] at h
  have hend : USER_END.length = 3 := rfl
  have hidx : (MAX_USERNAME_LENGTH : Int)
      - ((MAX_USERNAME_LENGTH - pre.length : Nat) : Int) = (pre.length : Int) := by
    simp only [MAX_USERNAME_LENGTH]; omega
  have hcopy : memcpy_at (pre ++ List.replicate (MAX_USERNAME_LENGTH - pre.length) 0)
      (pre.length : Int) USER_END
      = some (pre ++ USER_END
          ++ List.replicate (MAX_USERNAME_LENGTH - pre.length - USER_END.length) 0) := by
    unfold memcpy_at
    rw [if_pos (by omega)]
    exact memcpy_at_end pre USER_END (MAX_USERNAME_LENGTH - pre.length)
      (by rw [hend]; simp only [MAX_USERNAME_LENGTH]; omega)
  have hsz := size_minus_of_le (MAX_USERNAME_LENGTH - pre.length)
    (USER_END.length + 1) (by rw [hend]; simp only [MAX_USERNAME_LENGTH]; omega)
    (by simp only [MAX_USERNAME_LENGTH]; omega)
  have hge : ((MAX_USERNAME_LENGTH - pre.length : Nat) : Int) ≥ 4 := by
    simp only [MAX_USERNAME_LENGTH]; omega
  unfold list_end
  simp only [filling, if_true, hge, hidx, hcopy, hsz, bind, Option.bind, pure]

/-- The end block with fewer than four bytes left in the username buffer: nothing is
written. -/
theorem list_end_no_room (pre : List Nat) (h : MAX_USERNAME_LENGTH < pre.length + 4) :
    list_end (filling pre) = some
      { filling pre with
        username_size := ((MAX_USERNAME_LENGTH - pre.length : Nat) : Int) + 1
        using_username := false } := by
  simp only [MAX_USERNAME_LENGTH] at h
  have hge : ¬ ((MAX_USERNAME_LENGTH - pre.length : Nat) : Int) ≥ 4 := by
    simp only [MAX_USERNAME_LENGTH]; omega
  unfold list_end
  simp only [filling, if_true, hge, if_false, pure]

/-- With at most 59 bytes of names `handle_list` sends one page: the names, each
followed by a colon, then `END` and its terminator. -/
theorem handle_list_with_end_room (users : online_users) (username msg : Str) (A : sockaddr_in)
    (h : (names_text users).length + 4 < MAX_USERNAME_LENGTH) :
    handle_list users username msg A = some (users, list_send users username A
      ⟨chat_type.LIST.toNat,
       names_text users ++ USER_END
         ++ List.replicate (MAX_USERNAME_LENGTH - ((names_text users).length + 3)) 0,
       List.replicate MAX_MESSAGE_LENGTH 0, List.replicate MAX_USERNAME_LENGTH 0⟩) := by
  simp only [MAX_USERNAME_LENGTH] at h
  have hend : USER_END.length = 3 := rfl
  have hloop := list_loop_filling users username A users [] (by decide)
  rw [if_pos (by simp [MAX_USERNAME_LENGTH]; omega), List.nil_append] at hloop
  have hroom := list_end_room (names_text users) (by simp only [MAX_USERNAME_LENGTH]; omega)
  have hpage := list_page_eq
    { filling (names_text users) with
      username_data := names_text users ++ USER_END
        ++ List.replicate (MAX_USERNAME_LENGTH - (names_text users).length - USER_END.length) 0
      username_size :=
        ((MAX_USERNAME_LENGTH - (names_text users).length - (USER_END.length + 1) : Nat) : Int) }
    (names_text users ++ USER_END ++ [0])
    (List.replicate (MAX_USERNAME_LENGTH - ((names_text users).length + 5)) 0) 0
    (by simp [hend, MAX_USERNAME_LENGTH]; omega)
    (by simp [hend, MAX_USERNAME_LENGTH]; omega)
    (by
      have : MAX_USERNAME_LENGTH - (names_text users).length - USER_END.length
          = (MAX_USERNAME_LENGTH - ((names_text users).length + 5)) + 2 := by
        rw [hend]; simp only [MAX_USERNAME_LENGTH]; omega
      simp only [this, List.replicate_succ]
      simp)
    rfl rfl
  have hfin : names_text users ++ USER_END ++ [0]
      ++ List.replicate (MAX_USERNAME_LENGTH - (names_text users ++ USER_END ++ [0]).length) 0
      = names_text users ++ USER_END
        ++ List.replicate (MAX_USERNAME_LENGTH - ((names_text users).length + 3)) 0 := by
    have : MAX_USERNAME_LENGTH - ((names_text users).length + 3)
        = (MAX_USERNAME_LENGTH - (names_text users ++ USER_END ++ [0]).length) + 1 := by
      simp [hend, MAX_USERNAME_LENGTH]; omega
    rw [this, List.replicate_succ]
    simp
  unfold handle_list
  rw [list_init_eq, hloop]
  simp only [Option.bind_eq_bind, Option.some_bind, hroom, hpage, hfin]
  rfl

/-- With exactly 60 bytes of names `handle_list` sends one page as well: `END` takes
bytes 60 to 62 of the buffer, byte 63 is the zero of the initialisation, the terminator
goes behind the buffer, and the frame takes all 64 bytes. -/
theorem handle_list_with_end_full (users : online_users) (username msg : Str)
    (A : sockaddr_in) (h : (names_text users).length + 4 = MAX_USERNAME_LENGTH) :
    handle_list users username msg A = some (users, list_send users username A
      ⟨chat_type.LIST.toNat,
       names_text users ++ USER_END
         ++ List.replicate (MAX_USERNAME_LENGTH - ((names_text users).length + 3)) 0,
       List.replicate MAX_MESSAGE_LENGTH 0, List.replicate MAX_USERNAME_LENGTH 0⟩) := by
  simp only [MAX_USERNAME_LENGTH] at h
  have hend : USER_END.length = 3 := rfl
  have hloop := list_loop_filling users username A users [] (by decide)
  rw [if_pos (by simp [MAX_USERNAME_LENGTH]; omega), List.nil_append] at hloop
  have hroom := list_end_room (names_text users) (by simp only [MAX_USERNAME_LENGTH]; omega)
  have hpage := list_page_full
    { filling (names_text users) with
      username_data := names_text users ++ USER_END
        ++ List.replicate (MAX_USERNAME_LENGTH - (names_text users).length - USER_END.length) 0
      username_size :=
        ((MAX_USERNAME_LENGTH - (names_text users).length - (USER_END.length + 1) : Nat) : Int) }
    (names_text users ++ USER_END
        ++ List.replicate (MAX_USERNAME_LENGTH - (names_text users).length - USER_END.length) 0)
    (by simp [hend, MAX_USERNAME_LENGTH]; omega)
    (by simp [hend, MAX_USERNAME_LENGTH]; omega)
    rfl rfl rfl
  have hfin : MAX_USERNAME_LENGTH - (names_text users).length - USER_END.length
      = MAX_USERNAME_LENGTH - ((names_text users).length + 3) := by
    rw [hend]; omega
  unfold handle_list
  rw [list_init_eq, hloop]
  simp only [Option.bind_eq_bind, Option.some_bind, hroom, hpage]
  rw [hfin]
  rfl

/-- With at most 60 bytes of names `handle_list` sends one page: the names, each
followed by a colon, then `END`; the body is empty. -/
theorem handle_list_with_end (users : online_users) (username msg : Str) (A : sockaddr_in)
    (h : (names_text users).length + 4 ≤ MAX_USERNAME_LENGTH) :
    handle_list users username msg A = some (users, list_send users username A
      ⟨chat_type.LIST.toNat,
       names_text users ++ USER_END
         ++ List.replicate (MAX_USERNAME_LENGTH - ((names_text users).length + 3)) 0,
       List.replicate MAX_MESSAGE_LENGTH 0, List.replicate MAX_USERNAME_LENGTH 0⟩) := by
  rcases Nat.lt_or_eq_of_le h with h1 | h1
  · exact handle_list_with_end_room users username msg A h1
  · exact handle_list_with_end_full users username msg A h1

theorem names_text_ends_in_colon (users : List (Str × sockaddr_in)) (h : users ≠ []) :
    names_text users = (names_text users).dropLast ++ [58] := by
  rcases List.eq_nil_or_concat users with h0 | ⟨init, u, rfl⟩
  · exact absurd h0 h
  · have : names_text (init.concat u) = (names_text init ++ u.1) ++ [58] := by
      simp [names_text]
    rw [this, List.dropLast_concat]

/-- With 61 to 64 bytes of names `handle_list` sends one page that carries no `END`:
the names with the last colon replaced by the terminator, and an empty body. -/
theorem handle_list_without_end (users : online_users) (username msg : Str) (A : sockaddr_in)
    (h1 : MAX_USERNAME_LENGTH < (names_text users).length + 4)
    (h2 : (names_text users).length ≤ MAX_USERNAME_LENGTH) :
    handle_list users username msg A = some (users, list_send users username A
      ⟨chat_type.LIST.toNat,
       (names_text users).dropLast
         ++ List.replicate (MAX_USERNAME_LENGTH - ((names_text users).length - 1)) 0,
       List.replicate MAX_MESSAGE_LENGTH 0, List.replicate MAX_USERNAME_LENGTH 0⟩) := by
  simp only [MAX_USERNAME_LENGTH] at h1 h2
  have hne : users ≠ [] := by
    rintro rfl
    simp [names_text] at h1
  have hcolon := names_text_ends_in_colon users hne
  have hdl : (names_text users).dropLast.length = (names_text users).length - 1 :=
    List.length_dropLast _
  have hloop := list_loop_filling users username A users [] (by decide)
  rw [if_pos (by simp [MAX_USERNAME_LENGTH]; omega), List.nil_append] at hloop
  have hroom := list_end_no_room (names_text users) (by simp only [MAX_USERNAME_LENGTH]; omega)
  have hpage := list_page_eq
    { filling (names_text users) with
      username_size := ((MAX_USERNAME_LENGTH - (names_text users).length : Nat) : Int) + 1
      using_username := false }
    (names_text users).dropLast
    (List.replicate (MAX_USERNAME_LENGTH - (names_text users).length) 0) 58
    (by rw [hdl]; simp only [MAX_USERNAME_LENGTH]; omega)
    (by rw [hdl]; simp only [MAX_USERNAME_LENGTH]; omega)
    (by
      show names_text users ++ _ = _
      conv_lhs => rw [hcolon]
      simp
      omega)
    rfl rfl
  unfold handle_list
  rw [list_init_eq, hloop]
  simp only [Option.bind_eq_bind, Option.some_bind, hroom, hpage, hdl]
  rfl

/-- With more than 64 bytes of names `handle_list` writes a name or its colon
outside its 64-byte username buffer. -/
theorem handle_list_undefined (users : online_users) (username msg : Str) (A : sockaddr_in)
    (h : MAX_USERNAME_LENGTH < (names_text users).length) :
    handle_list users username msg A = none := by
  simp only [MAX_USERNAME_LENGTH] at h
  have hloop := list_loop_filling users username A users [] (by decide)
  unfold handle_list
  rw [list_init_eq, hloop, if_neg (by simp [MAX_USERNAME_LENGTH]; omega)]
  rfl

/-! ## Lemmas on the registry and the handlers -/

/-- The address test of `handle_broadcast` is inequality of addresses. -/
theorem address_differs (a b : sockaddr_in) :
    (a.s_addr != b.s_addr || a.sin_port != b.sin_port) = decide (b ≠ a) := by
  have hiff : b = a ↔ (a.s_addr = b.s_addr ∧ a.sin_port = b.sin_port) := by
    constructor
    · rintro rfl; exact ⟨rfl, rfl⟩
    · rintro ⟨h1, h2⟩
      cases a; cases b; simp_all
  by_cases h1 : a.s_addr = b.s_addr <;> by_cases h2 : a.sin_port = b.sin_port <;>
    simp [hiff, h1, h2]

theorem find_char_first (r rest : Str) (c : Nat) (h : c ∉ r) :
    find_char (r ++ c :: rest) c = some r.length := by
  induction r with
  | nil => simp [find_char]
  | cons b bs ih =>
    have hb : b ≠ c := fun e => h (by simp [e])
    have hbs : c ∉ bs := fun e => h (by simp [e])
    simp [find_char, hb, ih hbs]

theorem find_char_none (s : Str) (c : Nat) (h : c ∉ s) : find_char s c = none := by
  induction s with
  | nil => rfl
  | cons b bs ih =>
    have hb : b ≠ c := fun e => h (by simp [e])
    have hbs : c ∉ bs := fun e => h (by simp [e])
    simp [find_char, hb, ih hbs]

/-- A DIRECT message to a name that is not registered is answered with the code
`ERR_UNEXPECTED_MSG`. -/
theorem directmessage_unknown_recipient (users : online_users) (s r rest : Str)
    (A : sockaddr_in) (hr : 58 ∉ r) (hfind : map_find users r = none) :
    handle_directmessage users s (r ++ 58 :: rest) A
      = some (users, [(A, error_msg ERR_UNEXPECTED_MSG)]) := by
  unfold handle_directmessage
  rw [find_char_first r rest 58 hr]
  simp only [List.take_left, hfind]
  rfl

theorem map_find_none_filter {β : Type} (m : List (Str × β)) (k : Str)
    (h : map_find m k = none) : m.filter (fun e => e.1 != k) = m := by
  induction m with
  | nil => rfl
  | cons e rest ih =>
    obtain ⟨k', v⟩ := e
    unfold map_find at h
    by_cases hk : k' = k
    · simp [hk] at h
    · have hk' : (k' == k) = false := by simpa using hk
      rw [hk'] at h
      simp only [Bool.false_eq_true, if_false] at h
      simp [List.filter_cons, hk, ih h]

/-- After `users[username] = addr` the entries with another key are the old ones. -/
theorem map_assign_others {β : Type} (m : List (Str × β)) (k : Str) (v : β) :
    (map_assign m k v).filter (fun e => e.1 != k) = m.filter (fun e => e.1 != k) := by
  induction m with
  | nil => simp [map_assign]
  | cons e rest ih =>
    obtain ⟨k', v'⟩ := e
    unfold map_assign
    by_cases hk : k' = k
    · simp [hk, List.filter_cons]
    · have hk' : (k' == k) = false := by simpa using hk
      simp only [hk', Bool.false_eq_true, if_false]
      split
      · simp [List.filter_cons, hk]
      · simp [List.filter_cons, hk, ih]

theorem map_find_assign {β : Type} (m : List (Str × β)) (k : Str) (v : β) :
    map_find (map_assign m k v) k = some v := by
  induction m with
  | nil => simp [map_assign, map_find]
  | cons e rest ih =>
    obtain ⟨k', v'⟩ := e
    unfold map_assign
    by_cases hk : k' = k
    · simp [hk, map_find]
    · have hk' : (k' == k) = false := by simpa using hk
      simp only [hk', Bool.false_eq_true, if_false]
      split
      · simp [map_find]
      · simp [map_find, hk, ih]

theorem mapM_const_some {α β γ : Type} (l : List α) (x : Option β) (b : β) (f : α → β → γ)
    (h : x = some b) :
    l.mapM (fun a => do let y ← x; pure (f a y)) = some (l.map fun a => f a b) := by
  subst h
  induction l with
  | nil => rfl
  | cons a rest ih =>
    rw [List.mapM_cons, ih]
    rfl

/-- In send-to-all mode a page goes to every entry of the registry. -/
theorem list_send_all (users : online_users) (A : sockaddr_in) (msg : chat_message) :
    list_send users USER_ALL A msg = users.map fun user => (user.2, msg) := by
  unfold list_send send_all
  have : (USER_ALL == lit "__ALL") = true := by decide
  rw [if_pos this]
  congr 1
  apply List.filter_eq_self.mpr
  intro e _
  by_cases h : e.1 = lit "__ALL" <;> simp [h]

/-- A JOIN of a new username: the registry gains the entry, the joiner gets JACK,
every earlier session gets the "has joined" broadcast, and then come the datagrams
of `handle_list` in send-to-all mode on the new registry; the whole is defined
exactly when that `handle_list` is. -/
theorem handle_join_new (users : online_users) (u msg : Str) (A : sockaddr_in)
    (hnew : map_find users u = none) (hu : u.length < MAX_USERNAME_LENGTH) :
    ∃ bm, broadcast_msg (lit "Server") (u ++ lit " has joined the chat.") = some bm ∧
      handle_join users u msg A
        = (handle_list (map_assign users u A) USER_ALL [] A).map fun r =>
            (r.1, [(A, jack_msg)] ++ (users.map fun s => (s.2, bm)) ++ r.2) := by
  have hb := username_message_msg_eq .BROADCAST (lit "Server") (u ++ lit " has joined the chat.")
    (by decide)
    (by
      have : (lit " has joined the chat.").length = 21 := by decide
      simp only [List.length_append, this, MAX_MESSAGE_LENGTH, MAX_USERNAME_LENGTH] at *
      omega)
  refine ⟨_, hb, ?_⟩
  have hothers : (map_assign users u A).filter (fun user => user.1 != u) = users := by
    rw [map_assign_others, map_find_none_filter users u hnew]
  unfold handle_join
  rw [hnew]
  simp only [Option.isSome_none, Bool.false_eq_true, if_false, hothers]
  have hm := mapM_const_some users
    (broadcast_msg (lit "Server") (u ++ lit " has joined the chat.")) _
    (fun (user : Str × sockaddr_in) (b : chat_message) => (user.2, b)) hb
  simp only [Option.bind_eq_bind] at hm ⊢
  rw [hm]
  cases handle_list (map_assign users u A) USER_ALL [] A with
  | none => rfl
  | some r => rfl

/-- A JOIN of a new username into a registry whose names, the new one included, take
at most 60 bytes: JACK to the joiner, the broadcast to every earlier session, then
the single LIST page to every session of the new registry. -/
theorem handle_join_small (users : online_users) (u msg : Str) (A : sockaddr_in)
    (hnew : map_find users u = none) (hu : u.length < MAX_USERNAME_LENGTH)
    (hroom : (names_text (map_assign users u A)).length + 4 ≤ MAX_USERNAME_LENGTH) :
    ∃ bm, broadcast_msg (lit "Server") (u ++ lit " has joined the chat.") = some bm ∧
      handle_join users u msg A = some (map_assign users u A,
        [(A, jack_msg)] ++ (users.map fun s => (s.2, bm)) ++
          (map_assign users u A).map fun s => (s.2,
            (⟨chat_type.LIST.toNat,
              names_text (map_assign users u A) ++ USER_END ++ List.replicate
                (MAX_USERNAME_LENGTH - ((names_text (map_assign users u A)).length + 3)) 0,
              List.replicate MAX_MESSAGE_LENGTH 0,
              List.replicate MAX_USERNAME_LENGTH 0⟩ : chat_message))) := by
  obtain ⟨bm, hbm, hj⟩ := handle_join_new users u msg A hnew hu
  refine ⟨bm, hbm, ?_⟩
  rw [hj, handle_list_with_end _ _ _ _ hroom, list_send_all]
  rfl

/-- A JOIN of a new username that brings the names of the registry to more than 64
bytes runs `handle_list` out of its username buffer. -/
theorem handle_join_undefined (users : online_users) (u msg : Str) (A : sockaddr_in)
    (hnew : map_find users u = none) (hu : u.length < MAX_USERNAME_LENGTH)
    (h : MAX_USERNAME_LENGTH < (names_text (map_assign users u A)).length) :
    handle_join users u msg A = none := by
  obtain ⟨bm, -, hj⟩ := handle_join_new users u msg A hnew hu
  rw [hj, handle_list_undefined _ _ _ _ h]
  rfl

theorem strcmp_self (s : Str) : strcmp s s = 0 := by
  induction s with
  | nil => rfl
  | cons a rest ih => simp [strcmp, ih]

/-- The address comparison of `handle_leave` holds for every pair of addresses. -/
theorem strcmp_inet_ntoa_zero (static_buffer : Str) (a b : Nat) :
    strcmp_inet_ntoa static_buffer a b = 0 := by
  unfold strcmp_inet_ntoa
  exact strcmp_self _

/-- The search of `handle_leave` therefore selects by port alone. -/
theorem leave_username_by_port (users : online_users) (A : sockaddr_in) :
    leave_username users A
      = users.foldl (fun username user =>
          if A.sin_port == user.2.sin_port then user.1 else username) [] := by
  unfold leave_username
  simp [strcmp_inet_ntoa_zero]

/-! ## Claims on the codec -/

/-- C1 (amended): for fields that are NUL-free and fit (at most 63 bytes of username
or group name, at most 1023 of body), the frame of each encoder, read the way the
server reads it, gives back the encoder's kind and the field values passed; for
`creategroup_msg` the body read back is the colon-joined username list, provided
the first username is not empty and the joined text has at most 1022 bytes. -/
theorem codec_roundtrip (stack : chat_message) (username message groupname : Str)
    (usernames : List Str) (hstack : stack.sized)
    (hu : 0 ∉ username) (hul : username.length ≤ 63)
    (hm : 0 ∉ message) (hml : message.length ≤ 1023)
    (hg : 0 ∉ groupname) (hgl : groupname.length ≤ 63)
    (hus : ∀ u ∈ usernames, 0 ∉ u ∧ u.length ≤ 63)
    (hfirst : usernames.head? ≠ some [])
    (hjoin : ([58].intercalate usernames).length ≤ 1022) :
    (∃ m, join_msg stack username = some m ∧
      buffer_type m.bytes = chat_type.JOIN.toNat ∧
      buffer_username m.bytes = some username ∧ buffer_msg m.bytes = some []) ∧
    (∃ m, broadcast_msg username message = some m ∧
      receive m.bytes = some ⟨chat_type.BROADCAST.toNat, username, message, []⟩) ∧
    (∃ m, dm_msg username message = some m ∧
      receive m.bytes = some ⟨chat_type.DIRECTMESSAGE.toNat, username, message, []⟩) ∧
    (∃ m, list_msg username message = some m ∧
      receive m.bytes = some ⟨chat_type.LIST.toNat, username, message, []⟩) ∧
    (∃ m, messagegroup_msg groupname message = some m ∧
      receive m.bytes = some ⟨chat_type.MESSAGEGROUP.toNat, [], message, groupname⟩) ∧
    (∃ m, creategroup_msg groupname usernames = some m ∧
      receive m.bytes
        = some ⟨chat_type.CREATEGROUP.toNat, [], [58].intercalate usernames, groupname⟩) := by
  have hul' : username.length < MAX_USERNAME_LENGTH := by simp only [MAX_USERNAME_LENGTH]; omega
  have hml' : message.length < MAX_MESSAGE_LENGTH := by simp only [MAX_MESSAGE_LENGTH]; omega
  have hgl' : groupname.length < MAX_USERNAME_LENGTH := by simp only [MAX_USERNAME_LENGTH]; omega
  refine ⟨join_msg_receive stack username hstack hu hul',
    username_message_msg_receive _ username message hu hul' hm hml',
    username_message_msg_receive _ username message hu hul' hm hml',
    username_message_msg_receive _ username message hu hul' hm hml',
    messagegroup_msg_receive groupname message hg hgl' hm hml',
    creategroup_msg_receive groupname usernames hg hgl' ?_ hfirst ?_⟩
  · intro u hu
    refine ⟨(hus u hu).1, ?_⟩
    have := (hus u hu).2
    simp only [MAX_USERNAME_LENGTH]; omega
  · simp only [MAX_MESSAGE_LENGTH]; omega

set_option maxRecDepth 100000 in
/-- C1, instance: `broadcast_msg "alice" "hello"` reads back as BROADCAST, "alice",
"hello". -/
theorem codec_roundtrip_witness :
    ∃ m, broadcast_msg (lit "alice") (lit "hello") = some m ∧
      receive m.bytes = some ⟨chat_type.BROADCAST.toNat, lit "alice", lit "hello", []⟩ :=
  (codec_roundtrip (chat_message.zeroed .JOIN) (lit "alice") (lit "hello") (lit "team")
    [lit "alice", lit "bob"] (by decide) (by decide) (by decide) (by decide) (by decide)
    (by decide) (by decide) (by decide) (by decide) (by decide)).2.1

set_option maxRecDepth 100000 in
/-- C1 as stated fails for `creategroup_msg`.  Sixteen usernames of 63 bytes join to
exactly 1023 bytes, within the body bound, yet the body read back holds only the first
fifteen; and the usernames "" and "bob" read back as "bob", not ":bob". -/
theorem creategroup_roundtrip_fails :
    ((∀ u ∈ List.replicate 16 (List.replicate 63 97), 0 ∉ u ∧ u.length ≤ 63) ∧
      ([58].intercalate (List.replicate 16 (List.replicate 63 97))).length ≤ 1023 ∧
      (creategroup_msg (lit "g") (List.replicate 16 (List.replicate 63 97))).bind
          (fun m => buffer_msg m.bytes)
        = some ([58].intercalate (List.replicate 15 (List.replicate 63 97))) ∧
      [58].intercalate (List.replicate 15 (List.replicate 63 97))
        ≠ [58].intercalate (List.replicate 16 (List.replicate 63 97))) ∧
    ((creategroup_msg (lit "g") [[], lit "bob"]).bind (fun m => buffer_msg m.bytes)
        = some (lit "bob") ∧
      lit "bob" ≠ [58].intercalate [[], lit "bob"]) := by
  decide

set_option maxRecDepth 100000 in
/-- C2 fails on the code: with a 64-byte username or group name, or a 1024-byte body,
`join_msg`, `broadcast_msg`, `dm_msg`, `list_msg` and `messagegroup_msg` cut nothing;
they copy the whole argument and write outside the field, so no frame is defined. -/
theorem encoders_overflow_instead_of_truncating :
    join_msg (chat_message.zeroed .JOIN) (List.replicate 64 97) = none ∧
    broadcast_msg (List.replicate 64 97) (lit "hi") = none ∧
    broadcast_msg (lit "alice") (List.replicate 1024 97) = none ∧
    dm_msg (List.replicate 64 97) (lit "hi") = none ∧
    list_msg (List.replicate 64 97) (lit "hi") = none ∧
    messagegroup_msg (List.replicate 64 97) (lit "hi") = none :=
  ⟨join_msg_overflow _ _ (by decide) (by decide),
   username_message_msg_overflow _ _ _ (Or.inl (by decide)),
   username_message_msg_overflow _ _ _ (Or.inr (by rw [List.length_replicate]; decide)),
   username_message_msg_overflow _ _ _ (Or.inl (by decide)),
   username_message_msg_overflow _ _ _ (Or.inl (by decide)),
   messagegroup_msg_overflow _ _ (Or.inl (by decide))⟩

/-! ## Claims on the server handlers -/

/-- C3: when username `u` is registered at address `A`, a JOIN for `u` from any
address `B` sends exactly one frame, ERROR with code USER_ALREADY_ONLINE, to `B`, and
the registry is unchanged, so `u` still maps to `A`. -/
theorem join_duplicate (users : online_users) (u msg : Str) (A B : sockaddr_in)
    (h : map_find users u = some A) :
    ∃ r, handle_join users u msg B = some r ∧
      r.2 = [(B, error_msg ERR_USER_ALREADY_ONLINE)] ∧ r.1 = users ∧
      map_find r.1 u = some A := by
  refine ⟨(users, [(B, error_msg ERR_USER_ALREADY_ONLINE)]), ?_, rfl, rfl, h⟩
  unfold handle_join
  rw [h]
  rfl

set_option maxRecDepth 100000 in
/-- C3, instance: "alice" is registered at 1:5000 and a JOIN for "alice" arrives from
2:6000. -/
theorem join_duplicate_witness :
    map_find [(lit "alice", (⟨1, 5000⟩ : sockaddr_in))] (lit "alice") = some ⟨1, 5000⟩ ∧
    ∃ r, handle_join [(lit "alice", ⟨1, 5000⟩)] (lit "alice") [] ⟨2, 6000⟩ = some r ∧
      r.2 = [(⟨2, 6000⟩, error_msg ERR_USER_ALREADY_ONLINE)] ∧
      r.1 = [(lit "alice", ⟨1, 5000⟩)] ∧ map_find r.1 (lit "alice") = some ⟨1, 5000⟩ :=
  ⟨by decide, join_duplicate [(lit "alice", ⟨1, 5000⟩)] (lit "alice") [] ⟨1, 5000⟩ ⟨2, 6000⟩
    (by decide)⟩

set_option maxRecDepth 100000 in
/-- C4 fails on the code at this input: one session with a 40-byte name is registered
and a new 40-byte name joins.  `handle_join` ends in `handle_list`, which copies the
second name to offset 41 of its 64-byte username buffer and so writes outside it;
no result is defined. -/
theorem join_overflows_list_buffer :
    map_find [(List.replicate 40 97, (⟨1, 5000⟩ : sockaddr_in))] (List.replicate 40 98) = none ∧
    handle_join [(List.replicate 40 97, ⟨1, 5000⟩)] (List.replicate 40 98) [] ⟨2, 5000⟩
      = none := by
  decide

/-- C5: for a username field `u` and a body `b` (at most 63 and 1023 bytes),
`handle_broadcast` from address `A` sends the frame of `broadcast_msg u b` once to
every registered session whose address differs from `A`, in registry order, sends
nothing to address `A`, and leaves the registry unchanged. -/
theorem broadcast_forwarded (users : online_users) (u b : Str) (A : sockaddr_in)
    (hu : u.length ≤ 63) (hb : b.length ≤ 1023) :
    ∃ m, broadcast_msg u b = some m ∧
      handle_broadcast users u b A
        = some (users, (users.filter fun s => decide (s.2 ≠ A)).map fun s => (s.2, m)) ∧
      ∀ users' sent, handle_broadcast users u b A = some (users', sent) →
        ∀ d ∈ sent, d.1 ≠ A := by
  have hm := username_message_msg_eq .BROADCAST u b
    (by simp only [MAX_USERNAME_LENGTH]; omega) (by simp only [MAX_MESSAGE_LENGTH]; omega)
  have e : handle_broadcast users u b A
      = some (users, (users.filter fun s => decide (s.2 ≠ A)).map fun s =>
          (s.2, (⟨chat_type.BROADCAST.toNat,
            u ++ 0 :: List.replicate (MAX_USERNAME_LENGTH - (u.length + 1)) 0,
            b ++ 0 :: List.replicate (MAX_MESSAGE_LENGTH - (b.length + 1)) 0,
            List.replicate MAX_USERNAME_LENGTH 0⟩ : chat_message))) := by
    unfold handle_broadcast broadcast_msg
    rw [hm]
    simp only [address_differs]
    rfl
  refine ⟨_, hm, e, ?_⟩
  intro users' sent hs d hd
  rw [e] at hs
  have hs' := (Prod.mk.inj (Option.some.inj hs)).2
  subst hs'
  obtain ⟨s, hs1, rfl⟩ := List.mem_map.mp hd
  simpa using (List.mem_filter.mp hs1).2

set_option maxRecDepth 100000 in
/-- C5, instance: alice at 1:5000 broadcasts "hello"; bob at 2:5000 is the only
receiver. -/
theorem broadcast_forwarded_witness :
    ∃ m, broadcast_msg (lit "alice") (lit "hello") = some m ∧
      handle_broadcast [(lit "alice", ⟨1, 5000⟩), (lit "bob", ⟨2, 5000⟩)]
          (lit "alice") (lit "hello") ⟨1, 5000⟩
        = some ([(lit "alice", ⟨1, 5000⟩), (lit "bob", ⟨2, 5000⟩)], [(⟨2, 5000⟩, m)]) := by
  obtain ⟨m, h1, h2, -⟩ := broadcast_forwarded
    [(lit "alice", ⟨1, 5000⟩), (lit "bob", ⟨2, 5000⟩)] (lit "alice") (lit "hello") ⟨1, 5000⟩
    (by decide) (by decide)
  exact ⟨m, h1, h2⟩

set_option maxRecDepth 100000 in
/-- C6 fails on the code at this input: alice sends a DIRECT frame with body
"bob:hi" while no "bob" is registered.  The one frame sent back is ERROR with the
code `ERR_UNEXPECTED_MSG` (body bytes 0, 2), not `ERR_UNKNOWN_USERNAME` (0, 1). -/
theorem directmessage_unknown_recipient_code :
    handle_directmessage [(lit "alice", ⟨1, 5000⟩)] (lit "alice") (lit "bob:hi") ⟨1, 5000⟩
      = some ([(lit "alice", ⟨1, 5000⟩)], [(⟨1, 5000⟩, error_msg ERR_UNEXPECTED_MSG)]) ∧
    (error_msg ERR_UNEXPECTED_MSG).message_.take 2 = [0, 2] ∧
    (error_msg ERR_UNKNOWN_USERNAME).message_.take 2 = [0, 1] := by
  decide

/-- C7: for a DIRECT frame with username field `s` (at most 63 bytes) and a body of
at most 1023 bytes.  If the body is `r ++ ":" ++ rest` with no colon in `r`, and `r`
is registered at `R`, exactly one frame is sent: that of `dm_msg s rest` (`rest`
keeps its later colons), to `R`.  If the body has no colon, exactly one frame is
sent: ERROR with code UNEXPECTED_MESSAGE, to the sender.  The registry is unchanged
in both cases. -/
theorem directmessage_routing (users : online_users) (s : Str) (A : sockaddr_in)
    (hs : s.length ≤ 63) :
    (∀ r rest R, 58 ∉ r → (r ++ 58 :: rest).length ≤ 1023 → map_find users r = some R →
      ∃ m, dm_msg s rest = some m ∧
        handle_directmessage users s (r ++ 58 :: rest) A = some (users, [(R, m)])) ∧
    (∀ body, 58 ∉ body →
      handle_directmessage users s body A
        = some (users, [(A, error_msg ERR_UNEXPECTED_MSG)])) := by
  constructor
  · intro r rest R hr hlen hfind
    have hm := username_message_msg_eq .DIRECTMESSAGE s rest
      (by simp only [MAX_USERNAME_LENGTH]; omega)
      (by simp only [MAX_MESSAGE_LENGTH, List.length_append, List.length_cons] at *; omega)
    refine ⟨_, hm, ?_⟩
    unfold handle_directmessage
    rw [find_char_first r rest 58 hr]
    have hd : List.drop (r.length + 1) (r ++ 58 :: rest) = rest := by
      rw [← List.drop_drop, List.drop_left]; rfl
    simp only [List.take_left, hd, hfind]
    unfold dm_msg
    rw [hm]
    rfl
  · intro body hb
    unfold handle_directmessage
    rw [find_char_none body 58 hb]
    rfl

set_option maxRecDepth 100000 in
/-- C7, instance: alice sends the body "bob:hi:there"; bob at 2:5000 receives
DIRECT("alice", "hi:there"). -/
theorem directmessage_routing_witness :
    ∃ m, dm_msg (lit "alice") (lit "hi:there") = some m ∧
      handle_directmessage [(lit "alice", ⟨1, 5000⟩), (lit "bob", ⟨2, 5000⟩)]
          (lit "alice") (lit "bob" ++ 58 :: lit "hi:there") ⟨1, 5000⟩
        = some ([(lit "alice", ⟨1, 5000⟩), (lit "bob", ⟨2, 5000⟩)], [(⟨2, 5000⟩, m)]) :=
  (directmessage_routing [(lit "alice", ⟨1, 5000⟩), (lit "bob", ⟨2, 5000⟩)] (lit "alice")
    ⟨1, 5000⟩ (by decide)).1 (lit "bob") (lit "hi:there") ⟨2, 5000⟩
    (by decide) (by decide) (by decide)

set_option maxRecDepth 100000 in
/-- C8 fails on the code at this input: a registry of one username of 60 bytes
(N = 1, L = 60) and a LIST request.  The single page sent has the 60 bytes of the name
in its username field, followed by zero bytes only: the field holds no `END` token
(the last colon was overwritten by the terminator), and the body is empty. -/
theorem list_page_without_end :
    handle_list [(List.replicate 60 97, ⟨1, 5000⟩)] [] [] ⟨1, 5000⟩
      = some ([(List.replicate 60 97, ⟨1, 5000⟩)],
          [(⟨1, 5000⟩,
            ⟨chat_type.LIST.toNat, List.replicate 60 97 ++ List.replicate 4 0,
              List.replicate 1024 0, List.replicate 64 0⟩)]) := by
  decide

set_option maxRecDepth 100000 in
/-- C9 fails on the code at this input: two usernames of 30 bytes leave 2 bytes in
the username buffer and all 1024 bytes of the body buffer.  The final (only) page
has an all-zero body field, and its username field holds the two names without
`END`. -/
theorem list_end_not_in_body :
    handle_list [(List.replicate 30 97, ⟨1, 5000⟩), (List.replicate 30 98, ⟨2, 5000⟩)]
        [] [] ⟨1, 5000⟩
      = some ([(List.replicate 30 97, ⟨1, 5000⟩), (List.replicate 30 98, ⟨2, 5000⟩)],
          [(⟨1, 5000⟩,
            ⟨chat_type.LIST.toNat,
              List.replicate 30 97 ++ [58] ++ List.replicate 30 98 ++ List.replicate 3 0,
              List.replicate 1024 0, List.replicate 64 0⟩)]) := by
  decide

set_option maxRecDepth 100000 in
/-- C10 fails on the code at this input: alice is registered at 1:5000 and bob at
2:5000 (same port, other host), and LEAVE arrives from alice's address 1:5000.  The
session removed is bob's; alice stays registered, is sent LACK and is then sent the
LEAVE notification carrying "bob". -/
theorem leave_removes_other_session :
    handle_leave [(lit "alice", ⟨1, 5000⟩), (lit "bob", ⟨2, 5000⟩)] [] [] ⟨1, 5000⟩
      = some ([(lit "alice", ⟨1, 5000⟩)],
          [(⟨1, 5000⟩, lack_msg),
           (⟨1, 5000⟩,
            ⟨chat_type.LEAVE.toNat, lit "bob" ++ List.replicate 61 0,
              List.replicate 1024 0, List.replicate 64 0⟩)]) := by
  decide

/-! ## Lemmas on groups, the dispatch and error frames -/

theorem htons_bytes (e : Nat) (he : e < 65536) :
    htons e % 256 = e / 256 ∧ htons e / 256 % 256 = e % 256 := by
  unfold htons
  have hb : e / 256 % 256 = e / 256 := Nat.mod_eq_of_lt (by omega)
  have ha : e % 256 < 256 := Nat.mod_lt _ (by decide)
  have hq : e / 256 < 256 := by omega
  rw [hb]
  generalize e % 256 = a at *
  generalize e / 256 = q at *
  constructor <;> omega

/-- The frame of `messagegroup_msg` for fields that fit. -/
theorem messagegroup_msg_eq (groupname message : Str)
    (hg : groupname.length < MAX_USERNAME_LENGTH) (hm : message.length < MAX_MESSAGE_LENGTH) :
    messagegroup_msg groupname message = some
      ⟨chat_type.MESSAGEGROUP.toNat, List.replicate MAX_USERNAME_LENGTH 0,
       message ++ 0 :: List.replicate (MAX_MESSAGE_LENGTH - (message.length + 1)) 0,
       groupname ++ 0 :: List.replicate (MAX_USERNAME_LENGTH - (groupname.length + 1)) 0⟩ := by
  unfold messagegroup_msg
  simp only [chat_message.zeroed, copy_terminated_zeros _ _ hg, copy_terminated_zeros _ _ hm]
  rfl

/-- A LEAVE from an address whose port no session uses is answered with the code
`ERR_UNKNOWN_USERNAME` and changes nothing. -/
theorem handle_leave_unknown_port (users : online_users) (u m : Str) (A : sockaddr_in)
    (hport : ∀ s ∈ users, s.2.sin_port ≠ A.sin_port) :
    handle_leave users u m A = some (users, [(A, error_msg ERR_UNKNOWN_USERNAME)]) := by
  have hname : leave_username users A = [] := by
    rw [leave_username_by_port]
    have : ∀ (l : online_users) (acc : Str), (∀ s ∈ l, s.2.sin_port ≠ A.sin_port) →
        l.foldl (fun username user =>
          if A.sin_port == user.2.sin_port then user.1 else username) acc = acc := by
      intro l
      induction l with
      | nil => intro acc _; rfl
      | cons x rest ih =>
        intro acc h
        have hx : (A.sin_port == x.2.sin_port) = false :=
          beq_eq_false_iff_ne.mpr (Ne.symm (h x (List.mem_cons_self _ _)))
        simp only [List.foldl_cons, hx, Bool.false_eq_true, if_false]
        exact ih acc (fun s hs => h s (List.mem_cons_of_mem _ hs))
    exact this users [] hport
  unfold handle_leave
  simp only [hname]
  rfl

theorem getline_loop_done (bound : Nat) : getline_loop bound none = [] := by
  cases bound <;> rfl

/-- The loop over `getline` reads back colon-free tokens joined by colons, when the
last token is not empty. -/
theorem getline_loop_tokens (ms : List Str) (hne : ms ≠ []) (hms : ∀ m ∈ ms, 58 ∉ m)
    (hlast : ms.getLast? ≠ some []) (bound : Nat)
    (hb : ([58].intercalate ms).length < bound) :
    getline_loop bound (some ([58].intercalate ms)) = ms := by
  induction ms generalizing bound with
  | nil => exact absurd rfl hne
  | cons m rest ih =>
    cases bound with
    | zero => omega
    | succ bound =>
      cases rest with
      | nil =>
        have hm : m ≠ [] := fun e => hlast (by simp [e])
        have htext : [58].intercalate [m] = m := by simp [List.intercalate]
        have hempty : m.isEmpty = false := by cases m <;> simp_all
        rw [htext]
        unfold getline_loop getline
        simp only [find_char_none m 58 (hms m (by simp)), hempty, Bool.false_eq_true, if_false,
          getline_loop_done]
      | cons m2 rest2 =>
        have htext : [58].intercalate (m :: m2 :: rest2)
            = m ++ 58 :: [58].intercalate (m2 :: rest2) := by
          rw [intercalate_cons, intercalate_cons]
          simp
        rw [htext] at hb ⊢
        have hd : List.drop (m.length + 1) (m ++ 58 :: [58].intercalate (m2 :: rest2))
            = [58].intercalate (m2 :: rest2) := by
          rw [← List.drop_drop, List.drop_left]; rfl
        unfold getline_loop getline
        simp only [find_char_first m _ 58 (hms m (by simp)), List.take_left, hd]
        rw [ih (by simp) (fun x hx => hms x (by simp [hx]))
          (by simpa [List.getLast?_cons_cons] using hlast) bound
          (by simp only [List.length_append, List.length_cons] at hb; omega)]

/-- What `handle_creategroup` reads from a body `name:m1:...:mk`. -/
theorem creategroup_parse (name : Str) (ms : List Str) (hname : 58 ∉ name)
    (hms : ∀ m ∈ ms, 58 ∉ m) (hlast : ms.getLast? ≠ some []) :
    ((getline (some ([58].intercalate (name :: ms))) 58).1.getD [] = name) ∧
    getline_loop (([58].intercalate (name :: ms)).length + 1)
      (getline (some ([58].intercalate (name :: ms))) 58).2 = ms := by
  cases ms with
  | nil =>
    have htext : [58].intercalate [name] = name := by simp [List.intercalate]
    rw [htext]
    unfold getline
    simp only [find_char_none name 58 hname, getline_loop_done, and_true]
    cases name <;> simp
  | cons m rest =>
    have htext : [58].intercalate (name :: m :: rest)
        = name ++ 58 :: [58].intercalate (m :: rest) := by
      rw [intercalate_cons, intercalate_cons]
      simp
    have hd : List.drop (name.length + 1) (name ++ 58 :: [58].intercalate (m :: rest))
        = [58].intercalate (m :: rest) := by
      rw [← List.drop_drop, List.drop_left]; rfl
    rw [htext]
    unfold getline
    simp only [find_char_first name _ 58 hname, List.take_left, hd, Option.getD_some, true_and]
    exact getline_loop_tokens (m :: rest) (by simp) hms hlast _
      (by simp only [List.length_append, List.length_cons]; omega)

theorem address_equal (a b : sockaddr_in) :
    (a.s_addr == b.s_addr && a.sin_port == b.sin_port) = decide (b = a) := by
  have hiff : b = a ↔ (a.s_addr = b.s_addr ∧ a.sin_port = b.sin_port) := by
    constructor
    · rintro rfl; exact ⟨rfl, rfl⟩
    · rintro ⟨h1, h2⟩
      cases a; cases b; simp_all
  by_cases h1 : a.s_addr = b.s_addr <;> by_cases h2 : a.sin_port = b.sin_port <;>
    simp [hiff, h1, h2]

theorem username_message_msg_type (t : chat_type) (u b : Str) (m : chat_message)
    (h : username_message_msg t u b = some m) : m.type_ = t.toNat := by
  unfold username_message_msg at h
  cases h1 : copy_terminated (chat_message.zeroed t).username_ u with
  | none => simp [h1] at h
  | some x =>
    cases h2 : copy_terminated (chat_message.zeroed t).message_ b with
    | none => simp [h1, h2] at h
    | some y =>
      simp [h1, h2] at h
      rw [← h]
      rfl

theorem messagegroup_msg_type (g b : Str) (m : chat_message)
    (h : messagegroup_msg g b = some m) : m.type_ = chat_type.MESSAGEGROUP.toNat := by
  unfold messagegroup_msg at h
  cases h1 : copy_terminated (chat_message.zeroed .MESSAGEGROUP).groupname_ g with
  | none => simp [h1] at h
  | some x =>
    cases h2 : copy_terminated (chat_message.zeroed .MESSAGEGROUP).message_ b with
    | none => simp [h1, h2] at h
    | some y =>
      simp [h1, h2] at h
      rw [← h]
      rfl

theorem list_send_frame (users : online_users) (username : Str) (A : sockaddr_in)
    (msg : chat_message) : ∀ d ∈ list_send users username A msg, d.2 = msg := by
  intro d hd
  unfold list_send at hd
  split at hd
  · unfold send_all at hd
    obtain ⟨x, -, rfl⟩ := List.mem_map.mp hd
    rfl
  · simp at hd
    rw [hd]

/-- Whatever `handle_list` sends is a LIST frame, and it leaves the registry as it
is. -/
theorem handle_list_frames (users users1 : online_users) (username msg : Str)
    (A : sockaddr_in) (sent : List datagram)
    (h : handle_list users username msg A = some (users1, sent)) :
    users1 = users ∧ ∀ d ∈ sent, d.2.type_ = chat_type.LIST.toNat := by
  by_cases h1 : (names_text users).length + 4 ≤ MAX_USERNAME_LENGTH
  · rw [handle_list_with_end users username msg A h1] at h
    obtain ⟨rfl, rfl⟩ := Prod.mk.inj (Option.some.inj h)
    refine ⟨rfl, fun d hd => ?_⟩
    rw [list_send_frame _ _ _ _ d hd]
  · by_cases h2 : MAX_USERNAME_LENGTH < (names_text users).length
    · rw [handle_list_undefined users username msg A h2] at h
      exact absurd h (by simp)
    · have h3 : MAX_USERNAME_LENGTH < (names_text users).length + 4 := by omega
      have h4 : (names_text users).length ≤ MAX_USERNAME_LENGTH := by omega
      rw [handle_list_without_end users username msg A h3 h4] at h
      obtain ⟨rfl, rfl⟩ := Prod.mk.inj (Option.some.inj h)
      refine ⟨rfl, fun d hd => ?_⟩
      rw [list_send_frame _ _ _ _ d hd]

theorem mapM_const_frames {α : Type} (l : List α) (x : Option chat_message)
    (f : α → sockaddr_in) (others : List datagram)
    (h : l.mapM (fun a => x.bind fun y => pure (f a, y)) = some others) :
    ∀ d ∈ others, x = some d.2 := by
  cases x with
  | none =>
    cases l with
    | nil =>
      rw [List.mapM_nil] at h
      have h0 : [] = others := Option.some.inj h
      subst h0
      intro d hd
      exact absurd hd (by simp)
    | cons a rest =>
      rw [List.mapM_cons] at h
      exact absurd h (by simp)
  | some b =>
    have := mapM_const_some l (some b) b (fun a y => (f a, y)) rfl
    simp only [Option.bind_eq_bind, Option.some_bind] at this h
    rw [this] at h
    have h' := Option.some.inj h
    subst h'
    intro d hd
    obtain ⟨a, -, rfl⟩ := List.mem_map.mp hd
    rfl


theorem error_msg_type (e : Nat) : (error_msg e).type_ = chat_type.ERROR.toNat := rfl

theorem handle_join_frames (users users1 : online_users) (u msg : Str) (A : sockaddr_in)
    (sent : List datagram) (h : handle_join users u msg A = some (users1, sent)) :
    (users1 = users ∧ one_error_to A sent) ∨ no_error_frame sent := by
  unfold handle_join at h
  split at h
  · left
    obtain ⟨rfl, rfl⟩ := Prod.mk.inj (Option.some.inj h)
    exact ⟨rfl, _, rfl⟩
  · right
    simp only [Option.bind_eq_bind] at h
    cases hm : ((map_assign users u A).filter fun user => user.1 != u).mapM
        (fun user => (broadcast_msg (lit "Server") (u ++ lit " has joined the chat.")).bind
          fun broadcastMsg => pure (user.2, broadcastMsg)) with
    | none => rw [hm] at h; exact absurd h (by simp)
    | some others =>
      rw [hm] at h
      cases hl : handle_list (map_assign users u A) USER_ALL [] A with
      | none => rw [hl] at h; exact absurd h (by simp)
      | some r =>
        rw [hl] at h
        simp only [Option.some_bind, pure] at h
        obtain ⟨-, rfl⟩ := Prod.mk.inj (Option.some.inj h)
        have hframes := mapM_const_frames _ _ (fun user : Str × sockaddr_in => user.2) others hm
        have hlist := (handle_list_frames _ r.1 _ _ _ r.2 hl).2
        intro d hd
        simp only [List.mem_append, List.mem_singleton] at hd
        rcases hd with (rfl | hd) | hd
        · exact (by decide : jack_msg.type_ ≠ chat_type.ERROR.toNat)
        · have := username_message_msg_type _ _ _ _ (hframes d hd)
          rw [this]; decide
        · rw [hlist d hd]; decide

theorem handle_broadcast_frames (users users1 : online_users) (u msg : Str) (A : sockaddr_in)
    (sent : List datagram) (h : handle_broadcast users u msg A = some (users1, sent)) :
    no_error_frame sent := by
  unfold handle_broadcast at h
  cases hb : broadcast_msg u msg with
  | none => rw [hb] at h; exact absurd h (by simp)
  | some m =>
    rw [hb] at h
    simp only [Option.bind_eq_bind, Option.some_bind, pure] at h
    obtain ⟨-, rfl⟩ := Prod.mk.inj (Option.some.inj h)
    intro d hd
    obtain ⟨x, -, rfl⟩ := List.mem_map.mp hd
    have := username_message_msg_type _ _ _ _ hb
    simp only [this]
    decide

theorem handle_directmessage_frames (users users1 : online_users) (u msg : Str)
    (A : sockaddr_in) (sent : List datagram)
    (h : handle_directmessage users u msg A = some (users1, sent)) :
    (users1 = users ∧ one_error_to A sent) ∨ no_error_frame sent := by
  unfold handle_directmessage at h
  split at h
  · simp only at h
    split at h
    · right
      cases hb : dm_msg u (List.drop (_ + 1) msg) with
      | none => rw [hb] at h; exact absurd h (by simp)
      | some m =>
        rw [hb] at h
        simp only [Option.bind_eq_bind, Option.some_bind, pure] at h
        obtain ⟨-, rfl⟩ := Prod.mk.inj (Option.some.inj h)
        intro d hd
        simp only [List.mem_singleton] at hd
        subst hd
        have := username_message_msg_type _ _ _ _ hb
        simp only [this]
        decide
    · left
      obtain ⟨rfl, rfl⟩ := Prod.mk.inj (Option.some.inj h)
      exact ⟨rfl, _, rfl⟩
  · left
    obtain ⟨rfl, rfl⟩ := Prod.mk.inj (Option.some.inj h)
    exact ⟨rfl, _, rfl⟩

theorem handle_leave_frames (users users1 : online_users) (u msg : Str)
    (A : sockaddr_in) (sent : List datagram)
    (h : handle_leave users u msg A = some (users1, sent)) :
    (users1 = users ∧ one_error_to A sent) ∨ no_error_frame sent := by
  unfold handle_leave at h
  simp only at h
  split at h
  · left
    obtain ⟨rfl, rfl⟩ := Prod.mk.inj (Option.some.inj h)
    exact ⟨rfl, _, rfl⟩
  · split at h
    · right
      cases hc : memcpy_n (chat_message.zeroed .LEAVE).username_
          (leave_username users A ++ [0]) ((leave_username users A).length + 1) with
      | none => rw [hc] at h; exact absurd h (by simp)
      | some x =>
        rw [hc] at h
        simp only [Option.bind_eq_bind, Option.some_bind, pure] at h
        obtain ⟨-, rfl⟩ := Prod.mk.inj (Option.some.inj h)
        intro d hd
        simp only [List.mem_append, List.mem_singleton] at hd
        rcases hd with rfl | hd
        · exact (by decide : lack_msg.type_ ≠ chat_type.ERROR.toNat)
        · unfold send_all at hd
          obtain ⟨y, -, rfl⟩ := List.mem_map.mp hd
          exact (by decide : (chat_message.zeroed .LEAVE).type_ ≠ chat_type.ERROR.toNat)
    · left
      obtain ⟨rfl, rfl⟩ := Prod.mk.inj (Option.some.inj h)
      exact ⟨rfl, _, rfl⟩

theorem handle_creategroup_frames (users : online_users) (groups groups1 : group_map)
    (u msg : Str) (A : sockaddr_in) (sent : List datagram)
    (h : handle_creategroup users groups u msg A = some (groups1, sent)) :
    (groups1 = groups ∧ one_error_to A sent) ∨ no_error_frame sent := by
  unfold handle_creategroup at h
  simp only at h
  split at h
  · left
    obtain ⟨rfl, rfl⟩ := Prod.mk.inj (Option.some.inj h)
    exact ⟨rfl, _, rfl⟩
  · split at h
    · left
      obtain ⟨rfl, rfl⟩ := Prod.mk.inj (Option.some.inj h)
      exact ⟨rfl, _, rfl⟩
    · right
      cases hb : broadcast_msg (lit "Server")
          (group_created_text ((getline (some msg) 58).1.getD [])) with
      | none => rw [hb] at h; exact absurd h (by simp)
      | some m =>
        rw [hb] at h
        simp only [Option.bind_eq_bind, Option.some_bind, pure] at h
        obtain ⟨-, rfl⟩ := Prod.mk.inj (Option.some.inj h)
        intro d hd
        simp only [List.mem_singleton] at hd
        subst hd
        have := username_message_msg_type _ _ _ _ hb
        simp only [this]
        decide

theorem handle_messagegroup_frames (users : online_users) (groups : group_map)
    (u msg : Str) (A : sockaddr_in) (sent : List datagram)
    (h : handle_messagegroup users groups u msg A = some sent) :
    one_error_to A sent ∨ no_error_frame sent := by
  unfold handle_messagegroup at h
  simp only at h
  split at h
  · left
    have h' := Option.some.inj h
    subst h'
    exact ⟨_, rfl⟩
  · right
    cases hb : messagegroup_msg u msg with
    | none => rw [hb] at h; exact absurd h (by simp)
    | some m =>
      rw [hb] at h
      simp only [Option.bind_eq_bind, Option.some_bind, pure] at h
      have h' := Option.some.inj h
      subst h'
      intro d hd
      obtain ⟨x, -, hx⟩ := List.mem_filterMap.mp hd
      cases hf : map_find users x with
      | none => rw [hf] at hx; exact absurd hx (by simp)
      | some a =>
        rw [hf] at hx
        have hx' := Option.some.inj hx
        subst hx'
        have := messagegroup_msg_type _ _ _ hb
        simp only [this]
        decide


/-- Whatever a handler of the table sends is either one ERROR frame to the sender,
with the state unchanged, or holds no ERROR frame at all. -/
theorem handle_messages_frames (type : Nat) (st st1 : server_state) (username msg : Str)
    (A : sockaddr_in) (sent : List datagram)
    (h : handle_messages type st username msg A = some (st1, sent)) :
    (st1 = st ∧ one_error_to A sent) ∨ no_error_frame sent := by
  have lift : ∀ (r : Option (online_users × List datagram)),
      r.map (fun r => (({ st with online_users := r.1 } : server_state), r.2)) = some (st1, sent) →
      (∀ users1, r = some (users1, sent) →
        (users1 = st.online_users ∧ one_error_to A sent) ∨ no_error_frame sent) →
      (st1 = st ∧ one_error_to A sent) ∨ no_error_frame sent := by
    intro r hr hstep
    cases r with
    | none => exact absurd hr (by simp)
    | some r =>
      obtain ⟨rfl, rfl⟩ := Prod.mk.inj (Option.some.inj hr)
      rcases hstep r.1 rfl with ⟨h1, h2⟩ | h2
      · left
        exact ⟨by rw [h1], h2⟩
      · right
        exact h2
  unfold handle_messages at h
  simp only at h
  split at h
  · exact lift _ h fun users1 hr => handle_join_frames _ _ _ _ _ _ hr
  · refine lift _ h fun users1 hr => ?_
    obtain ⟨rfl, rfl⟩ := Prod.mk.inj (Option.some.inj hr)
    exact Or.inl ⟨rfl, _, rfl⟩
  · exact lift _ h fun users1 hr => Or.inr (handle_broadcast_frames _ _ _ _ _ _ hr)
  · exact lift _ h fun users1 hr => handle_directmessage_frames _ _ _ _ _ _ hr
  · refine lift _ h fun users1 hr => Or.inr ?_
    have := (handle_list_frames _ _ _ _ _ _ hr).2
    intro d hd
    rw [this d hd]
    decide
  · exact lift _ h fun users1 hr => handle_leave_frames _ _ _ _ _ _ hr
  · refine lift _ h fun users1 hr => ?_
    obtain ⟨rfl, rfl⟩ := Prod.mk.inj (Option.some.inj hr)
    exact Or.inl ⟨rfl, _, rfl⟩
  · right
    obtain ⟨-, rfl⟩ := Prod.mk.inj (Option.some.inj h)
    intro d hd
    unfold handle_exit at hd
    obtain ⟨x, -, rfl⟩ := List.mem_map.mp hd
    exact (by decide : exit_msg.type_ ≠ chat_type.ERROR.toNat)
  · cases hc : handle_creategroup st.online_users st.groups username msg A with
    | none => rw [hc] at h; exact absurd h (by simp)
    | some r =>
      rw [hc] at h
      obtain ⟨rfl, rfl⟩ := Prod.mk.inj (Option.some.inj h)
      rcases handle_creategroup_frames _ _ r.1 _ _ _ r.2 hc with ⟨h1, h2⟩ | h2
      · left
        exact ⟨by rw [h1], h2⟩
      · right
        exact h2
  · cases hc : handle_messagegroup st.online_users st.groups username msg A with
    | none => rw [hc] at h; exact absurd h (by simp)
    | some r =>
      rw [hc] at h
      obtain ⟨rfl, rfl⟩ := Prod.mk.inj (Option.some.inj h)
      rcases handle_messagegroup_frames _ _ _ _ _ _ hc with h2 | h2
      · exact Or.inl ⟨rfl, h2⟩
      · exact Or.inr h2
  · right
    obtain ⟨-, rfl⟩ := Prod.mk.inj (Option.some.inj h)
    intro d hd
    exact absurd hd (by simp)

/-! ## Claims on leaving twice, groups, error frames and the client -/

set_option maxRecDepth 100000 in
/-- C11 fails on the code at this input: alice joins from host 1, port 5000, and bob
from host 2, port 5000.  The first LEAVE from bob's address 2:5000 succeeds: bob is
removed, LACK goes to 2:5000 and the LEAVE broadcast to alice.  Nobody is registered
at 2:5000 any more, yet the second LEAVE from it removes alice, who is registered at
another host, and sends LACK: no ERROR frame is sent and the registry is not left
unchanged. -/
theorem second_leave_from_left_address_acknowledged :
    ((handle_join [] (lit "alice") [] ⟨1, 5000⟩).bind
        (fun r => handle_join r.1 (lit "bob") [] ⟨2, 5000⟩)).map (fun r => r.1)
      = some [(lit "alice", ⟨1, 5000⟩), (lit "bob", ⟨2, 5000⟩)] ∧
    handle_leave [(lit "alice", ⟨1, 5000⟩), (lit "bob", ⟨2, 5000⟩)] [] [] ⟨2, 5000⟩
      = some ([(lit "alice", ⟨1, 5000⟩)],
          [(⟨2, 5000⟩, lack_msg),
           (⟨1, 5000⟩, ⟨chat_type.LEAVE.toNat, lit "bob" ++ List.replicate 61 0,
              List.replicate 1024 0, List.replicate 64 0⟩)]) ∧
    handle_leave [(lit "alice", ⟨1, 5000⟩)] [] [] ⟨2, 5000⟩
      = some ([], [(⟨2, 5000⟩, lack_msg)]) ∧
    ¬ (handle_leave [(lit "alice", ⟨1, 5000⟩)] [] [] ⟨2, 5000⟩
      = some ([(lit "alice", ⟨1, 5000⟩)],
          [(⟨2, 5000⟩, error_msg ERR_UNKNOWN_USERNAME)])) := by
  exact ⟨by decide, by decide, by decide, by decide⟩

/-- C12: the body is `name:m1:...:mk` (no colon inside a part, the last part not
empty, `name` at most 63 bytes), no group is called `name`, and the entry the
registry holds for the sender's address `A` is `c`.  The member list is the `mi` that
are registered, in order, followed by `c` unless it is among them.  With at least 2
entries the group registry gets `name` with exactly that list and one frame is
sent, the confirmation BROADCAST from "Server", to `A`; with fewer the group
registry is unchanged (and one ERROR frame goes to `A`). -/
theorem creategroup_members (users : online_users) (groups : group_map)
    (u name c : Str) (ms : List Str) (A : sockaddr_in)
    (hname : 58 ∉ name) (hnl : name.length ≤ 63)
    (hms : ∀ m ∈ ms, 58 ∉ m) (hlast : ms.getLast? ≠ some [])
    (hnew : map_find groups name = none)
    (hc : users.find? (fun s => decide (s.2 = A)) = some (c, A)) :
    (2 ≤ (if c ∈ ms.filter (fun m => (map_find users m).isSome)
          then ms.filter (fun m => (map_find users m).isSome)
          else ms.filter (fun m => (map_find users m).isSome) ++ [c]).length →
      ∃ confirm, broadcast_msg (lit "Server") (group_created_text name) = some confirm ∧
        handle_creategroup users groups u ([58].intercalate (name :: ms)) A
          = some (map_assign groups name
              (if c ∈ ms.filter (fun m => (map_find users m).isSome)
               then ms.filter (fun m => (map_find users m).isSome)
               else ms.filter (fun m => (map_find users m).isSome) ++ [c]),
             [(A, confirm)])) ∧
    ((if c ∈ ms.filter (fun m => (map_find users m).isSome)
          then ms.filter (fun m => (map_find users m).isSome)
          else ms.filter (fun m => (map_find users m).isSome) ++ [c]).length < 2 →
      handle_creategroup users groups u ([58].intercalate (name :: ms)) A
        = some (groups, [(A, error_msg ERR_UNEXPECTED_MSG)])) := by
  obtain ⟨hp1, hp2⟩ := creategroup_parse name ms hname hms hlast
  have hconfirm := username_message_msg_eq .BROADCAST (lit "Server") (group_created_text name)
    (by decide)
    (by
      have h1 : (lit "Group ").length = 6 := by decide
      have h2 : (lit " created successfully.").length = 22 := by decide
      simp only [group_created_text, List.length_append, List.length_cons, List.length_nil,
        h1, h2, MAX_MESSAGE_LENGTH]
      omega)
  have hcontains : ∀ l : List Str, l.contains c = decide (c ∈ l) := by
    intro l; simp
  have hbody : handle_creategroup users groups u ([58].intercalate (name :: ms)) A
      = if (if c ∈ ms.filter (fun m => (map_find users m).isSome)
            then ms.filter (fun m => (map_find users m).isSome)
            else ms.filter (fun m => (map_find users m).isSome) ++ [c]).length < 2
        then some (groups, [(A, error_msg ERR_UNEXPECTED_MSG)])
        else (broadcast_msg (lit "Server") (group_created_text name)).bind fun confirm =>
          some (map_assign groups name
              (if c ∈ ms.filter (fun m => (map_find users m).isSome)
               then ms.filter (fun m => (map_find users m).isSome)
               else ms.filter (fun m => (map_find users m).isSome) ++ [c]),
             [(A, confirm)]) := by
    unfold handle_creategroup
    simp only [hp1, hp2, hnew, Option.isSome_none, Bool.false_eq_true, if_false, address_equal,
      hc, hcontains, decide_eq_true_eq]
    rfl
  constructor
  · intro h2
    refine ⟨_, hconfirm, ?_⟩
    rw [hbody, if_neg (by omega)]
    unfold broadcast_msg
    rw [hconfirm]
    rfl
  · intro h2
    rw [hbody, if_pos h2]


set_option maxRecDepth 100000 in
/-- C12, instances: the request "g:alice:bob" from alice stores g = alice, bob when
both are online, and stores nothing when only alice is. -/
theorem creategroup_members_witness :
    (∃ confirm, broadcast_msg (lit "Server") (group_created_text (lit "g")) = some confirm ∧
      handle_creategroup [(lit "alice", ⟨1, 5000⟩), (lit "bob", ⟨2, 5000⟩)] [] []
          (lit "g:alice:bob") ⟨1, 5000⟩
        = some ([(lit "g", [lit "alice", lit "bob"])], [(⟨1, 5000⟩, confirm)])) ∧
    handle_creategroup [(lit "alice", ⟨1, 5000⟩)] [] [] (lit "g:alice:bob") ⟨1, 5000⟩
      = some ([], [(⟨1, 5000⟩, error_msg ERR_UNEXPECTED_MSG)]) :=
  ⟨(creategroup_members [(lit "alice", ⟨1, 5000⟩), (lit "bob", ⟨2, 5000⟩)] [] [] (lit "g")
      (lit "alice") [lit "alice", lit "bob"] ⟨1, 5000⟩ (by decide) (by decide) (by decide)
      (by decide) (by decide) (by decide)).1 (by decide),
   (creategroup_members [(lit "alice", ⟨1, 5000⟩)] [] [] (lit "g")
      (lit "alice") [lit "alice", lit "bob"] ⟨1, 5000⟩ (by decide) (by decide) (by decide)
      (by decide) (by decide) (by decide)).2 (by decide)⟩

set_option maxRecDepth 100000 in
/-- C13 fails on the code: alice joins the empty server and sends CREATEGROUP with
body "g:alice:alice".  The member list alice, alice has two entries, so the group
"g" is stored, with a single distinct username. -/
theorem group_of_one_member :
    handle_join [] (lit "alice") [] ⟨1, 5000⟩
      = some ([(lit "alice", ⟨1, 5000⟩)],
          [(⟨1, 5000⟩, jack_msg),
           (⟨1, 5000⟩, ⟨chat_type.LIST.toNat, lit "alice:END" ++ List.replicate 55 0,
              List.replicate 1024 0, List.replicate 64 0⟩)]) ∧
    (handle_messages 8 ⟨[(lit "alice", ⟨1, 5000⟩)], [], false⟩ [] (lit "g:alice:alice")
        ⟨1, 5000⟩).map (fun r => r.1)
      = some ⟨[(lit "alice", ⟨1, 5000⟩)], [(lit "g", [lit "alice", lit "alice"])], false⟩ ∧
    ([lit "alice", lit "alice"] : List Str).eraseDups.length = 1 := by
  decide

/-- C14: for a MESSAGEGROUP frame whose username field `g` and body fit their
fields.  If `g` names a group, the frame of `messagegroup_msg g body` (kind
MESSAGEGROUP, group name `g`) is sent once for every member of the group that the
session registry holds, to that member's address, in member order; members that
are not registered get nothing, and nothing else is sent.  If `g` names no group,
exactly one frame is sent: ERROR with code UNKNOWN_USERNAME, to the sender. -/
theorem messagegroup_forwarding (users : online_users) (groups : group_map) (g body : Str)
    (A : sockaddr_in) (hg : g.length ≤ 63) (hb : body.length ≤ 1023) :
    (∀ members, map_find groups g = some members →
      ∃ m, messagegroup_msg g body = some m ∧
        m.type_ = chat_type.MESSAGEGROUP.toNat ∧
        handle_messagegroup users groups g body A
          = some (members.filterMap fun u => (map_find users u).map fun a => (a, m))) ∧
    (map_find groups g = none →
      handle_messagegroup users groups g body A
        = some [(A, error_msg ERR_UNKNOWN_USERNAME)]) := by
  have hm := messagegroup_msg_eq g body (by simp only [MAX_USERNAME_LENGTH]; omega)
    (by simp only [MAX_MESSAGE_LENGTH]; omega)
  constructor
  · intro members hfind
    refine ⟨_, hm, rfl, ?_⟩
    unfold handle_messagegroup
    simp only [hfind, hm]
    rfl
  · intro hfind
    unfold handle_messagegroup
    simp only [hfind]
    rfl

set_option maxRecDepth 100000 in
/-- C14, instance: the group "team" is alice, bob and carol; carol is not registered. -/
theorem messagegroup_forwarding_witness :
    ∃ m, messagegroup_msg (lit "team") (lit "hi") = some m ∧
      m.type_ = chat_type.MESSAGEGROUP.toNat ∧
      handle_messagegroup [(lit "alice", ⟨1, 5000⟩), (lit "bob", ⟨2, 5000⟩)]
          [(lit "team", [lit "alice", lit "bob", lit "carol"])] (lit "team") (lit "hi") ⟨1, 5000⟩
        = some (([lit "alice", lit "bob", lit "carol"] : List Str).filterMap fun u =>
            (map_find [(lit "alice", (⟨1, 5000⟩ : sockaddr_in)), (lit "bob", ⟨2, 5000⟩)] u).map
              fun a => (a, m)) :=
  (messagegroup_forwarding [(lit "alice", ⟨1, 5000⟩), (lit "bob", ⟨2, 5000⟩)]
    [(lit "team", [lit "alice", lit "bob", lit "carol"])] (lit "team") (lit "hi") ⟨1, 5000⟩
    (by decide) (by decide)).1 [lit "alice", lit "bob", lit "carol"] (by decide)

set_option maxRecDepth 100000 in
/-- C15 fails on the code: alice's client turns the line "creategroup:team:bob"
into one frame that carries "team" in the group name field and "bob" in the body.
The server hands only the username and the body to `handle_creategroup`, which
reads "bob" as the group name and no members; it answers ERROR (UNEXPECTED_MSG) and
the group registry stays empty. -/
theorem client_creategroup_not_recorded :
    (gui_command (lit "alice") ⟨false, false⟩ (lit "creategroup:team:bob")).bind
        (fun r => server_steps
          ⟨[(lit "alice", ⟨1, 5000⟩), (lit "bob", ⟨2, 5000⟩)], [], false⟩ ⟨1, 5000⟩ r.2)
      = some (⟨[(lit "alice", ⟨1, 5000⟩), (lit "bob", ⟨2, 5000⟩)], [], false⟩,
          [(⟨1, 5000⟩, error_msg ERR_UNEXPECTED_MSG)]) ∧
    (gui_command (lit "alice") ⟨false, false⟩ (lit "creategroup:team:bob")).map
        (fun r => r.2.map fun frame => receive frame.bytes)
      = some [some ⟨chat_type.CREATEGROUP.toNat, [], lit "bob", lit "team"⟩] := by
  decide

set_option maxRecDepth 100000 in
/-- C16 fails on the code: alice's client turns the line "msggroup:team:hi" into one
frame that carries "team" in the group name field and an empty username field.
`handle_messagegroup` looks the group up under the username field, finds none, and
answers ERROR (UNKNOWN_USERNAME) to alice; nothing is sent to bob. -/
theorem client_msggroup_not_delivered :
    (gui_command (lit "alice") ⟨false, false⟩ (lit "msggroup:team:hi")).bind
        (fun r => server_steps
          ⟨[(lit "alice", ⟨1, 5000⟩), (lit "bob", ⟨2, 5000⟩)],
           [(lit "team", [lit "alice", lit "bob"])], false⟩ ⟨1, 5000⟩ r.2)
      = some (⟨[(lit "alice", ⟨1, 5000⟩), (lit "bob", ⟨2, 5000⟩)],
           [(lit "team", [lit "alice", lit "bob"])], false⟩,
          [(⟨1, 5000⟩, error_msg ERR_UNKNOWN_USERNAME)]) ∧
    (gui_command (lit "alice") ⟨false, false⟩ (lit "msggroup:team:hi")).map
        (fun r => r.2.map fun frame => receive frame.bytes)
      = some [some ⟨chat_type.MESSAGEGROUP.toNat, [], lit "hi", lit "team"⟩] := by
  decide

set_option maxRecDepth 100000 in
/-- C17 fails on the code: the line "bc:hello" has two parts, `to_type` maps "bc" to
BROADCAST, and the switch of the control loop has no case for BROADCAST, so the
client sends no frame and the server sends nothing to anybody. -/
theorem client_bc_sends_nothing :
    split (lit "bc:hello") 58 = [lit "bc", lit "hello"] ∧
    to_type (lit "bc") = chat_type.BROADCAST ∧
    gui_command (lit "alice") ⟨false, false⟩ (lit "bc:hello") = some (⟨false, false⟩, []) ∧
    (gui_command (lit "alice") ⟨false, false⟩ (lit "bc:hello")).bind
        (fun r => server_steps
          ⟨[(lit "alice", ⟨1, 5000⟩), (lit "bob", ⟨2, 5000⟩)], [], false⟩ ⟨1, 5000⟩ r.2)
      = some (⟨[(lit "alice", ⟨1, 5000⟩), (lit "bob", ⟨2, 5000⟩)], [], false⟩, []) := by
  decide

/-- C18: whenever the handling of a datagram from `A` sends an ERROR frame, that
frame is the only one sent, it goes to `A`, and the session registry and the group
registry are as before. -/
theorem error_frames_isolated (st st1 : server_state) (buffer : List Nat) (A : sockaddr_in)
    (sent : List datagram)
    (h : server_step st buffer A = some (st1, sent))
    (herr : ∃ d ∈ sent, d.2.type_ = chat_type.ERROR.toNat) :
    (∃ e, sent = [(A, error_msg e)]) ∧
      st1.online_users = st.online_users ∧ st1.groups = st.groups := by
  have hempty : ¬ ∃ d ∈ ([] : List datagram), d.2.type_ = chat_type.ERROR.toNat := by simp
  unfold server_step at h
  split at h
  · split at h
    · exact absurd h (by simp)
    · split at h
      · rcases handle_messages_frames _ _ _ _ _ _ _ h with ⟨h1, h2⟩ | h2
        · exact ⟨h2, by rw [h1], by rw [h1]⟩
        · obtain ⟨d, hd, ht⟩ := herr
          exact absurd ht (h2 d hd)
      · obtain ⟨-, rfl⟩ := Prod.mk.inj (Option.some.inj h)
        exact absurd herr hempty
  · obtain ⟨-, rfl⟩ := Prod.mk.inj (Option.some.inj h)
    exact absurd herr hempty

set_option maxRecDepth 100000 in
/-- C18, instance: "alice" is registered at 1:5000 and a JOIN frame for "alice"
arrives from 2:6000. -/
theorem error_frames_isolated_witness :
    server_step ⟨[(lit "alice", ⟨1, 5000⟩)], [], false⟩
        (chat_message.bytes ⟨chat_type.JOIN.toNat, lit "alice" ++ List.replicate 59 0,
          List.replicate 1024 0, List.replicate 64 0⟩) ⟨2, 6000⟩
      = some (⟨[(lit "alice", ⟨1, 5000⟩)], [], false⟩,
          [(⟨2, 6000⟩, error_msg ERR_USER_ALREADY_ONLINE)]) ∧
    (∃ e, [((⟨2, 6000⟩ : sockaddr_in), error_msg ERR_USER_ALREADY_ONLINE)]
      = [(⟨2, 6000⟩, error_msg e)]) :=
  ⟨by decide,
   (error_frames_isolated ⟨[(lit "alice", ⟨1, 5000⟩)], [], false⟩
    ⟨[(lit "alice", ⟨1, 5000⟩)], [], false⟩
    (chat_message.bytes ⟨chat_type.JOIN.toNat, lit "alice" ++ List.replicate 59 0,
      List.replicate 1024 0, List.replicate 64 0⟩) ⟨2, 6000⟩
    [(⟨2, 6000⟩, error_msg ERR_USER_ALREADY_ONLINE)] (by decide)
    ⟨_, List.mem_singleton.mpr rfl, rfl⟩).1⟩

set_option maxRecDepth 100000 in
/-- C19 fails on the code: a line without colon has one part, and the control loop
sends every such line as broadcast text.  The bare lines "leave", "exit" and "list"
each yield one BROADCAST frame with that word as body and leave both flags unset;
and the LIST case itself sends nothing ("list:" yields no frame). -/
theorem client_bare_commands_are_broadcast :
    gui_command (lit "alice") ⟨false, false⟩ (lit "leave")
      = (broadcast_msg (lit "alice") (lit "leave")).map (fun m => (⟨false, false⟩, [m])) ∧
    gui_command (lit "alice") ⟨false, false⟩ (lit "exit")
      = (broadcast_msg (lit "alice") (lit "exit")).map (fun m => (⟨false, false⟩, [m])) ∧
    gui_command (lit "alice") ⟨false, false⟩ (lit "list")
      = (broadcast_msg (lit "alice") (lit "list")).map (fun m => (⟨false, false⟩, [m])) ∧
    (broadcast_msg (lit "alice") (lit "leave")).isSome = true ∧
    (broadcast_msg (lit "alice") (lit "exit")).isSome = true ∧
    (broadcast_msg (lit "alice") (lit "list")).isSome = true ∧
    gui_command (lit "alice") ⟨false, false⟩ (lit "list:") = some (⟨false, false⟩, []) := by
  decide

/-- C20: for every 16-bit error code `e`, `error_msg e` is a frame of kind ERROR (10)
whose body starts with `e` in big-endian order: byte 0 is `e / 256` and byte 1 is
`e % 256` (on the little-endian host of this development). -/
theorem error_msg_big_endian (e : Nat) (he : e < 65536) :
    (error_msg e).type_ = chat_type.ERROR.toNat ∧
    (error_msg e).message_[0]? = some (e / 256) ∧
    (error_msg e).message_[1]? = some (e % 256) := by
  have h1 : e % 65536 = e := Nat.mod_eq_of_lt he
  obtain ⟨h2, h3⟩ := htons_bytes e he
  refine ⟨rfl, ?_, ?_⟩
  · simp only [error_msg, h1, List.cons_append, List.getElem?_cons_zero, h2]
  · simp only [error_msg, h1, List.cons_append, List.getElem?_cons_succ,
      List.getElem?_cons_zero, h3]

/-- C20, instance: the code 258 gives the body bytes 1, 2. -/
theorem error_msg_big_endian_witness :
    (258 : Nat) < 65536 ∧
    (error_msg 258).type_ = chat_type.ERROR.toNat ∧
    (error_msg 258).message_[0]? = some (258 / 256) ∧
    (error_msg 258).message_[1]? = some (258 % 256) :=
  ⟨by decide, error_msg_big_endian 258 (by decide)⟩

/-! ## Lemmas on what `handle_leave` removes -/

/-- The name the search of `handle_leave` ends with is the initial one or the key of an
entry that uses the sender's port. -/
theorem leave_search_result (l : online_users) (A : sockaddr_in) (acc : Str) :
    l.foldl (fun username user =>
        if A.sin_port == user.2.sin_port then user.1 else username) acc = acc ∨
    ∃ entry ∈ l, entry.2.sin_port = A.sin_port ∧
      l.foldl (fun username user =>
        if A.sin_port == user.2.sin_port then user.1 else username) acc = entry.1 := by
  induction l generalizing acc with
  | nil => left; rfl
  | cons x rest ih =>
    simp only [List.foldl_cons]
    by_cases hx : A.sin_port = x.2.sin_port
    · have hb : (A.sin_port == x.2.sin_port) = true := by simpa using hx
      simp only [hb, if_true]
      rcases ih x.1 with h | ⟨e, he, hp, hr⟩
      · right
        exact ⟨x, List.mem_cons_self _ _, hx.symm, h⟩
      · right
        exact ⟨e, List.mem_cons_of_mem _ he, hp, hr⟩
    · have hb : (A.sin_port == x.2.sin_port) = false := by simpa using hx
      simp only [hb, Bool.false_eq_true, if_false]
      rcases ih acc with h | ⟨e, he, hp, hr⟩
      · left; exact h
      · right
        exact ⟨e, List.mem_cons_of_mem _ he, hp, hr⟩

theorem map_erase_length {β : Type} (m : List (Str × β)) (k : Str) :
    m.length ≤ (map_erase m k).length + 1 := by
  induction m with
  | nil => simp [map_erase]
  | cons e rest ih =>
    obtain ⟨k1, v⟩ := e
    unfold map_erase
    split
    · simp
    · simp only [List.length_cons]
      omega

theorem map_erase_sublist {β : Type} (m : List (Str × β)) (k : Str) :
    List.Sublist (map_erase m k) m := by
  induction m with
  | nil => simp [map_erase]
  | cons e rest ih =>
    obtain ⟨k1, v⟩ := e
    unfold map_erase
    split
    · exact List.sublist_cons_self _ _
    · exact List.Sublist.cons₂ _ ih

/-- What `handle_leave` does to the registry: nothing, or it erases the entry of one
non-empty username that is registered with the sender's port (the host address of
that entry plays no part). -/
theorem handle_leave_removes (users users1 : online_users) (u m : Str) (A : sockaddr_in)
    (sent : List datagram) (h : handle_leave users u m A = some (users1, sent)) :
    users1 = users ∨
    ∃ name a, name ≠ [] ∧ (name, a) ∈ users ∧ a.sin_port = A.sin_port ∧
      users1 = map_erase users name := by
  have hsearch := leave_search_result users A []
  rw [← leave_username_by_port] at hsearch
  unfold handle_leave at h
  simp only at h
  split at h
  · left
    exact (Prod.mk.inj (Option.some.inj h)).1.symm
  · rename_i hlen
    split at h
    · right
      cases hc : memcpy_n (chat_message.zeroed .LEAVE).username_
          (leave_username users A ++ [0]) ((leave_username users A).length + 1) with
      | none => rw [hc] at h; exact absurd h (by simp)
      | some x =>
        rw [hc] at h
        simp only [Option.bind_eq_bind, Option.some_bind, pure] at h
        have h1 := (Prod.mk.inj (Option.some.inj h)).1
        have hne : leave_username users A ≠ [] := by
          intro h0
          rw [h0] at hlen
          exact hlen rfl
        rcases hsearch with h0 | ⟨e, he, hp, hr⟩
        · exact absurd h0 hne
        · refine ⟨e.1, e.2, hr ▸ hne, he, hp, ?_⟩
          rw [← hr]
          exact h1.symm
    · left
      exact (Prod.mk.inj (Option.some.inj h)).1.symm

/-! ## Claims on the buffers of `handle_list` and on `handle_leave` -/

set_option maxRecDepth 100000 in
/-- C21 fails on the code at this input: two usernames of 40 bytes.  After the first
name 23 bytes are left in the username buffer.  For the second name the test for
room, an unsigned difference compared with zero, is true, so the name is copied to
offset 41 of the 64-byte username buffer, which it leaves; it is not put into the
body buffer, and `handle_list` has no defined result. -/
theorem list_name_written_past_username_buffer :
    list_step [(List.replicate 40 97, ⟨1, 5000⟩), (List.replicate 40 98, ⟨2, 5000⟩)] []
        ⟨1, 5000⟩ list_init (List.replicate 40 97)
      = some (filling (List.replicate 40 97 ++ [58])) ∧
    (filling (List.replicate 40 97 ++ [58])).username_size = 23 ∧
    decide (size_minus (filling (List.replicate 40 97 ++ [58])).username_size
      ((List.replicate 40 98).length + 1) ≥ 0) = true ∧
    memcpy (filling (List.replicate 40 97 ++ [58])).username_data
      (filling (List.replicate 40 97 ++ [58])).username_ptr (List.replicate 40 98) = none ∧
    list_step [(List.replicate 40 97, ⟨1, 5000⟩), (List.replicate 40 98, ⟨2, 5000⟩)] []
        ⟨1, 5000⟩ (filling (List.replicate 40 97 ++ [58])) (List.replicate 40 98)
      = none ∧
    handle_list [(List.replicate 40 97, ⟨1, 5000⟩), (List.replicate 40 98, ⟨2, 5000⟩)]
        [] [] ⟨1, 5000⟩ = none := by
  decide

set_option maxRecDepth 100000 in
/-- C23 fails on the code at this input: alice is registered at host 1, port 5000,
and a LEAVE arrives from host 9, port 5000, where nobody is registered.  Alice's
session is removed although its host address differs from the sender's, and LACK
goes to the sender. -/
theorem leave_removes_session_of_other_host :
    handle_leave [(lit "alice", ⟨1, 5000⟩), (lit "bob", ⟨2, 6000⟩)] [] [] ⟨9, 5000⟩
      = some ([(lit "bob", ⟨2, 6000⟩)],
          [(⟨9, 5000⟩, lack_msg),
           (⟨2, 6000⟩, ⟨chat_type.LEAVE.toNat, lit "alice" ++ List.replicate 59 0,
              List.replicate 1024 0, List.replicate 64 0⟩)]) ∧
    (⟨1, 5000⟩ : sockaddr_in).s_addr ≠ (⟨9, 5000⟩ : sockaddr_in).s_addr := by
  decide

end chat
